import Mathlib

/-!
Verification of the Rogu resource-synchronization core.

This file gives a shallow embedding, in Lean 4, of the parts of the Rogu
code base (src/rogu) that the specification's claims are about:

* the resource data model (`resources.py`: `Resource`, `_UgorResource`,
  `File`, categories, `cache_key`, `path_hash`),
* the divergence algorithm (`_UgorResource.divergence`),
* the history log (`history.py`: `Entry`, `record`, `resource_entries`),
* the synchronization engine (`rdsl.py`: `fetch`, `install`, `upload`,
  `sync`, `move`, `delete`, `is_modified`, with the `refresh_resource`
  and `recording` decorators),
* the Ugor remote-store client (`ugor.py`: conditional GET/PUT/DELETE).

Modelling conventions:

* The SHA-1 hex digest is modelled by `digest`, an injective stand-in
  (digests are only ever compared for equality in the source, so a
  collision-free idealization preserves all compared behaviour).
* Machine-level details (timestamps, HTTP strings) are `Nat`/`String`.
* The embedding models a single `File` resource against its single Ugor
  remote object; `st.files` is the slice of the local filesystem keyed
  by path, `st.remote` the resource's remote object, `st.registry` the
  persistent resource cache (`cache.resources`), `st.hist` the history
  log (newest first, the order `history.resource_entries` yields).
* The Ugor server itself is external to the repository; its conditional
  request semantics are modelled from the spec (section 4.4).
* Fallible actions return `Except`; a fatal error carries the state at
  the point the exception escaped (Python mutates in place).
-/

namespace Rogu

/-- Collision-free idealization of `hashlib.sha1(...).hexdigest()`:
the source only ever compares digests for equality, so the digest is
modelled as an injective function of the hashed bytes. -/
def digest (s : String) : String := s

/-- Category bit `Resource.INSTALL = 1 << 0` (resources.py). -/
def INSTALL : Nat := 1

/-- Category bit `Resource.UPLOAD = 1 << 1` (resources.py). -/
def UPLOAD : Nat := 2

/-- Category mask `Resource.SYNC = INSTALL | UPLOAD` (resources.py). -/
def SYNC : Nat := INSTALL ||| UPLOAD

/-- Category bit `Resource.IGNORE = 1 << 4` (resources.py). -/
def IGNORE : Nat := 16

/-- A local file: content plus mtime (`stat().st_mtime`). -/
structure FileData where
  content : String
  mtime : Nat
deriving Repr, DecidableEq

/-- The remote Ugor object for the resource: content, ETag,
Last-Modified, the `data2` metadata slot (fingerprint at last upload)
and description, as carried by `ugor.UgorFile`. -/
structure RemoteObj where
  content : String
  etag : String
  modified : Nat
  data2 : Option String
  description : Option String
deriving Repr, DecidableEq

/-- The resource classes of resources.py that `rdsl.fetch` can build. -/
inductive RKind
  | file
  | repo
  | archive
  | release
deriving Repr, DecidableEq

/-- The mutable state of a `File` resource (resources.py `File`,
inheriting `_UgorResource`): normalized path, uri, category bitmask and
remote bookkeeping (`last_etag`, `last_modified`, `description`). -/
structure FileRes where
  kind : RKind
  path : String
  uri : String
  category : Nat
  lastEtag : Option String
  lastModified : Option Nat
  description : Option String
deriving Repr, DecidableEq

/-- A history entry (history.py `Entry`), restricted to the columns the
engine reads back: `ok`, `action`, `key`, `local_hash`, `message`.
(The display-only columns timestamp/name/path/uri/short_key are
omitted.) -/
structure Entry where
  ok : Bool
  action : String
  key : String
  localHash : String
  message : String
deriving Repr, DecidableEq

/-- The process-wide state an engine action touches: the local
filesystem slice, the remote object, the resource registry
(`cache.resources`), the history log (newest first), the in-memory
resource, and the server clock used for fresh Last-Modified values. -/
structure St where
  files : List (String × FileData)
  remote : Option RemoteObj
  registry : List (String × FileRes)
  hist : List Entry
  res : FileRes
  clock : Nat
deriving Repr, DecidableEq

/-- Association-list lookup (models dict/Shelf `get`). -/
def alist_get {α : Type} (l : List (String × α)) (k : String) : Option α :=
  match l with
  | [] => none
  | (k', v) :: t => if k' = k then some v else alist_get t k

/-- Association-list removal (models dict `del`). -/
def alist_erase {α : Type} (l : List (String × α)) (k : String) : List (String × α) :=
  l.filter (fun p => p.1 ≠ k)

/-- Association-list update (models dict assignment / file write). -/
def alist_set {α : Type} (l : List (String × α)) (k : String) (v : α) : List (String × α) :=
  (k, v) :: alist_erase l k

/-- `resources.cache_key` on an already-canonicalized path: a
two-letter prefix from the lengths of path and uri modulo 26, followed
by the SHA-1 digest of path and uri concatenated. -/
def cache_key (path uri : String) : String :=
  let x := Char.ofNat (65 + path.length % 26)
  let y := Char.ofNat (65 + uri.length % 26)
  String.mk [x, y] ++ digest (path ++ uri)

/-- `resources.cache_key` including its initial `normalize_path` call;
the canonicalization itself (realpath/expanduser/expandvars) is an OS
service, taken as a parameter. -/
def cache_key_of (normalize : String → String) (path uri : String) : String :=
  cache_key (normalize path) uri

/-- The resource's cache key (`Resource.key`). -/
def res_key (r : FileRes) : String :=
  cache_key r.path r.uri

/-- `resource.path.exists()` for the embedded resource. -/
def exists_local (st : St) : Bool :=
  (alist_get st.files st.res.path).isSome

/-- `Resource.path_hash` in the `File` case: `''` when the path does
not exist, else the digest of the file's bytes. -/
def path_hash (st : St) : String :=
  match alist_get st.files st.res.path with
  | none => ""
  | some fd => digest fd.content

/-- `Resource.path_modified` in the `File` case: `arrow.get(0)` when
the path does not exist, else the file's mtime. -/
def path_modified (st : St) : Nat :=
  match alist_get st.files st.res.path with
  | none => 0
  | some fd => fd.mtime

/-- `_UgorResource.divergence` (resources.py lines 317-371), with
`ugor.get_header` modelled from the spec: a metadata-only fetch that
raises NotFound (404) exactly when the remote object is absent
(`get_header` is called but not defined in src/rogu/ugor.py; spec
section 4.4 `headOnly`). -/
def divergence (st : St) : Int :=
  match st.remote with
  | none =>
      -- except UgorError404: if path exists it is newest
      if exists_local st then 1 else 0
  | some header =>
      if ¬ exists_local st then -1
      else
        let old_etag := st.res.lastEtag
        let new_etag := header.etag
        let old_hash := header.data2
        let new_hash := path_hash st
        let uri_mod := header.modified
        let path_mod := path_modified st
        let is_uploaded := old_hash.isSome
        let is_new := old_etag.isNone
        let has_local_changes := old_hash ≠ some new_hash
        let has_remote_changes := old_etag ≠ some new_etag
        if is_new then
          if uri_mod > path_mod then -2 else 2
        else if ¬ is_uploaded then
          if has_remote_changes then -1 else 0
        else if has_local_changes ∧ has_remote_changes then
          if uri_mod > path_mod then -2 else 2
        else if has_local_changes ∧ ¬ has_remote_changes then 1
        else if ¬ has_local_changes ∧ has_remote_changes then -1
        else 0

/-- The divergence decision table exactly as the claim and spec section
4.2 word it, for comparison with `divergence` (which is translated from
the source). -/
def divergence_spec (st : St) : Int :=
  if st.remote = none then
    if exists_local st then 1 else 0
  else if ¬ exists_local st then -1
  else
    match st.remote with
    | none => 0
    | some header =>
      if st.res.lastEtag = none then
        if header.modified > path_modified st then -2 else 2
      else if header.data2 = none then
        if st.res.lastEtag ≠ some header.etag then -1 else 0
      else if header.data2 ≠ some (path_hash st) ∧ st.res.lastEtag ≠ some header.etag then
        if header.modified > path_modified st then -2 else 2
      else if header.data2 ≠ some (path_hash st) then 1
      else if st.res.lastEtag ≠ some header.etag then -1
      else 0

/-- `result.Result`: success flag plus accumulated messages (in append
order; the source's `message` property reads them newest-first). -/
structure Result where
  success : Bool
  messages : List String
deriving Repr, DecidableEq

/-- `result.Ok(msg)`. -/
def mkOk (msgs : List String) : Result := ⟨true, msgs⟩

/-- `result.Fail(msg)`. -/
def mkFail (msgs : List String) : Result := ⟨false, msgs⟩

/-- `Result.message`: messages joined newest-first with `; `, plus a
final period when non-empty. -/
def Result.message (r : Result) : String :=
  let txt := String.intercalate "; " r.messages.reverse
  if txt = "" then "" else txt ++ "."

/-- Errors an action can raise: `ActionBlocked`, `AppError`,
`UgorError<code>` and Python/OS runtime errors (`TypeError`,
`FileNotFoundError`, `KeyError`), which nothing in rdsl.py catches. -/
inductive Err
  | blocked (msg : String)
  | app (msg : String)
  | ugor (code : Nat) (msg : String)
  | os (msg : String)
deriving Repr, DecidableEq

/-- Outcome of an rdsl action: a `Result` with the resulting state, or
a fatal error with the state at the point the exception escaped. -/
abbrev ActionOut := Except (Err × St) (St × Result)

/-- The state an action left behind, on either outcome. -/
def outSt (o : ActionOut) : St :=
  match o with
  | .ok (s, _) => s
  | .error (_, s) => s

/-- Whether an action returned a successful `Result`. -/
def outSuccess (o : ActionOut) : Bool :=
  match o with
  | .ok (_, r) => r.success
  | .error _ => false

/-- Whether an action aborted with a fatal error. -/
def isFatal (o : ActionOut) : Bool :=
  match o with
  | .ok _ => false
  | .error _ => true

-- HISTORY (history.py)

/-- The `entry.ok and entry.key == resource.key` filter of
`history.resource_entries`. -/
def entry_for (st : St) (e : Entry) : Bool :=
  e.ok && decide (e.key = res_key st.res)

/-- `history.resource_entries(resource)`: the ok entries for the
resource's key, newest first. -/
def resource_entries (st : St) : List Entry :=
  st.hist.filter (entry_for st)

/-- The `not actions or entry.action in actions` filter inside
`rdsl.is_modified`. -/
def action_match (acts : Option (List String)) (e : Entry) : Bool :=
  match acts with
  | none => true
  | some as => decide (e.action ∈ as)

/-- `history.record(action, resource, ok, message)`, prepended since the
log is read newest-first.  `resource.local_hash` is absent from the src
`Resource` class (which defines `path_hash`); modelled from the spec:
the Fingerprint, "content-derived digest used to detect local
modification". -/
def record (action : String) (st : St) (ok : Bool) (msg : String) : St :=
  { st with hist :=
      { ok := ok, action := action, key := res_key st.res,
        localHash := path_hash st, message := msg } :: st.hist }

/-- `rdsl.is_modified(resource, actions)`: take the newest ok history
entry for this resource passing the action filter; with no such entry
the resource counts as modified iff its path exists; otherwise iff the
recorded fingerprint differs from the current one or the path no longer
exists. -/
def is_modified (st : St) (acts : Option (List String)) : Bool :=
  match (resource_entries st).find? (action_match acts) with
  | none => exists_local st
  | some latest => decide (latest.localHash ≠ path_hash st) || !exists_local st

-- UGOR CLIENT (ugor.py) WITH THE SERVER MODELLED FROM THE SPEC

/-- Whether a conditional GET is answered 304 Not Modified: the
`If-None-Match` ETag matches, or - with no ETag sent - the object has
not been modified after the `If-Modified-Since` date.  Modelled from
the spec (section 4.4). -/
def notMod (etag : Option String) (modified : Option Nat) (rf : RemoteObj) : Bool :=
  match etag with
  | some e => decide (e = rf.etag)
  | none =>
      match modified with
      | some m => decide (rf.modified ≤ m)
      | none => false

/-- `ugor.get(name, etag, modified)` together with the store's
conditional-GET behaviour (modelled from the spec, section 4.4): 404
when the object is absent, 304 per `notMod`.  The client
(src/rogu/ugor.py `get`) maps 304 to `None` and 404 to `UgorError404`. -/
def ugor_get (st : St) (etag : Option String) (modified : Option Nat) :
    Except Err (Option RemoteObj) :=
  match st.remote with
  | none => .error (.ugor 404 "Not Found")
  | some rf =>
      if notMod etag modified rf then .ok none else .ok (some rf)

/-- Whether the `If-Match`/`If-Unmodified-Since` headers - only sent
when set and not forced (src/rogu/ugor.py `delete`) - are satisfied by
the existing remote object.  The store side is modelled from the spec
(section 4.4). -/
def precondition_ok (rf : RemoteObj) (etag : Option String)
    (modified : Option Nat) (force : Bool) : Bool :=
  (force || match etag with
            | some e => decide (e = rf.etag)
            | none => true) &&
  (force || match modified with
            | some m => decide (rf.modified ≤ m)
            | none => true)

/-- `ugor.delete(name, force, etag, modified)` (src/rogu/ugor.py lines
170-184): sends `If-Match`/`If-Unmodified-Since` only when given and
not forced; the store (modelled from the spec, section 4.4) answers 404
for a missing object and 412 on a precondition mismatch, else deletes. -/
def ugor_delete (st : St) (etag : Option String) (modified : Option Nat)
    (force : Bool) : Except Err St :=
  match st.remote with
  | none => .error (.ugor 404 "Not Found")
  | some rf =>
      if precondition_ok rf etag modified force then
        .ok { st with remote := none }
      else .error (.ugor 412 "Precondition Failed")

-- RESOURCE TRANSFER METHODS (resources.py)

/-- `if file.description: self.description = file.description` in
`_UgorResource.ugor_install` (Python truthiness: an empty string is
skipped). -/
def desc_update (res : FileRes) (d? : Option String) : FileRes :=
  match d? with
  | some d => if d = "" then res else { res with description := some d }
  | none => res

/-- `_UgorResource.ugor_install(force)`: conditional GET carrying the
stored ETag/Last-Modified unless forced; on 304 returns no content; on
content, takes over the response's description (when non-empty, per
Python truthiness), ETag and Last-Modified. -/
def ugor_install (st : St) (force : Bool) : Except Err (St × Option String) :=
  match ugor_get st (if force then none else st.res.lastEtag)
      (if force then none else st.res.lastModified) with
  | .error e => .error e
  | .ok none => .ok (st, none)
  | .ok (some f) =>
      let res := desc_update st.res f.description
      let res := { res with lastEtag := some f.etag, lastModified := some f.modified }
      .ok ({ st with res := res }, some f.content)

/-- `_UgorResource.ugor_upload(obj, force)` (resources.py lines
298-315): the body calls `ugor.put(obj=obj, name=..., force=..., ...)`,
but `ugor.put` (src/rogu/ugor.py line 62) names its required first
parameter `o`, so Python raises TypeError at call binding - before any
HTTP request - and no transfer happens and no bookkeeping is updated.
(Were the call bound, `put` returns the tuple `(file, created)`
(ugor.py line 167) and the subsequent `file.last_etag` reads would
raise AttributeError on the tuple.)  The exception is not an
`ActionBlocked`, so every caller propagates it fatally. -/
def ugor_upload (_st : St) (_content : String) (_force : Bool) : Except Err St :=
  .error (.os "TypeError: put() missing required positional argument o")

/-- `File.install(force)`: fetch via `ugor_install`; when content
arrives, write it to the path (the sibling `.name~` backup copy lies
outside the modelled path).  Writing refreshes the mtime. -/
def file_install (st : St) (force : Bool) : Except Err St :=
  match ugor_install st force with
  | .error e => .error e
  | .ok (st1, none) => .ok st1
  | .ok (st1, some content) =>
      .ok { st1 with files :=
              alist_set st1.files st1.res.path ⟨content, st1.clock⟩ }

/-- `File.upload(force)`: `ActionBlocked` when the path does not exist,
else upload the path's content. -/
def file_upload (st : St) (force : Bool) : Except Err St :=
  match alist_get st.files st.res.path with
  | none => .error (.blocked (st.res.path ++ " does not exist"))
  | some fd => ugor_upload st fd.content force

/-- `File.refresh_metadata` (resources.py lines 488-497): when the path
no longer exists and the category is non-default, reset the category to
`DEFAULT` and clear the stored ETag/Last-Modified. -/
def refresh_metadata (st : St) : St :=
  if ¬ exists_local st ∧ st.res.category ≠ 0 then
    { st with res :=
        { st.res with category := 0, lastEtag := none, lastModified := none } }
  else st

-- RDSL ENGINE ACTIONS (rdsl.py)
--
-- Each action reproduces its decorator stack: `@need_resource` (a type
-- check, vacuous here), `@refresh_resource` (only on update, install,
-- upload and sync), and `@recording`, which appends one history entry
-- when - and only when - the wrapped body returns a `Result` (a raised
-- exception escapes the wrapper before `history.record` runs).

/-- The `try: resource.install(**kwargs) except ActionBlocked` part of
`rdsl.install`, run after the INSTALL category bit has been set. -/
def install_body (st : St) (force : Bool) : ActionOut :=
  match file_install st force with
  | .error (.blocked m) =>
      let r := mkFail ["not installed: " ++ m]
      .ok (record "install" st false r.message, r)
  | .error e => .error (e, st)
  | .ok st1 =>
      let r := mkOk ["installed " ++ st1.res.uri]
      .ok (record "install" st1 true r.message, r)

/-- `rdsl.install(resource, force)` for the embedded `File` resource
(which has an `install` method, so the installability check passes):
not forced and modified w.r.t. the last ok `install` history entry
gives a failed `Result`; else the `INSTALL` category bit is set and the
transfer runs, with `ActionBlocked` turned into a failed `Result`. -/
def rdsl_install (st0 : St) (force : Bool) : ActionOut :=
  let st := refresh_metadata st0
  if is_modified st (some ["install"]) && !force then
    let r := mkFail ["not installed: resource has local changes"]
    .ok (record "install" st false r.message, r)
  else
    install_body
      { st with res := { st.res with category := st.res.category ||| INSTALL } } force

/-- The `try: resource.upload(**kwargs) except ActionBlocked` part of
`rdsl.upload`, run after the UPLOAD category bit has been set. -/
def upload_body (st : St) (force : Bool) : ActionOut :=
  match file_upload st force with
  | .error (.blocked m) =>
      let r := mkFail ["not uploaded: " ++ m]
      .ok (record "upload" st false r.message, r)
  | .error e => .error (e, st)
  | .ok st1 =>
      let r := mkOk ["uploaded " ++ st1.res.path]
      .ok (record "upload" st1 true r.message, r)

/-- `rdsl.upload(resource, force)` for the embedded `File` resource:
not forced and NOT modified w.r.t. the last ok `upload` history entry
gives a failed `Result` ("no local changes"); else the `UPLOAD`
category bit is set and the transfer runs, with `ActionBlocked` turned
into a failed `Result`. -/
def rdsl_upload (st0 : St) (force : Bool) : ActionOut :=
  let st := refresh_metadata st0
  if !(is_modified st (some ["upload"])) && !force then
    let r := mkFail ["not uploaded: resource has no local changes"]
    .ok (record "upload" st false r.message, r)
  else
    upload_body
      { st with res := { st.res with category := st.res.category ||| UPLOAD } } force

/-- The install phase of `rdsl.sync`: runs after the upload phase
produced the accumulated messages `msgs` without returning; the final
`Result` keeps the initial `Ok()` success flag, so the "not synced"
outcome is a SUCCESSFUL result. -/
def sync_install_phase (st : St) (force : Bool) (msgs : List String) : ActionOut :=
  if !(is_modified st (some ["sync", "install"])) then
    match file_install st force with
    | .error (.blocked m) =>
        let r := mkOk (msgs ++ ["not installed: " ++ m, "not synced"])
        .ok (record "sync" st true r.message, r)
    | .error e => .error (e, st)
    | .ok st1 =>
        let r := mkOk (msgs ++ ["synced by installing " ++ st1.res.uri])
        .ok (record "sync" st1 true r.message, r)
  else
    let r := mkOk (msgs ++ ["not installed: has local changes", "not synced"])
    .ok (record "sync" st true r.message, r)

/-- The upload attempt of `rdsl.sync`: `ActionBlocked` falls through to
the install phase with the accumulated message; a successful upload
returns at once. -/
def sync_upload_phase (st : St) (force : Bool) : ActionOut :=
  match file_upload st force with
  | .error (.blocked m) =>
      sync_install_phase st force ["not uploaded: " ++ m]
  | .error e => .error (e, st)
  | .ok st1 =>
      let r := mkOk ["synced by uploading " ++ st1.res.path]
      .ok (record "sync" st1 true r.message, r)

/-- `rdsl.sync(resource)` for the embedded `File` resource (which has
both `install` and `upload`, so the capability check passes): sets the
`SYNC` category bits, uploads when modified w.r.t. the last ok
`sync`/`upload` entry, else installs when NOT modified w.r.t. the last
ok `sync`/`install` entry; a run where neither happens returns a
`Result` that is still successful (the initial `Ok()`). -/
def rdsl_sync (st0 : St) (force : Bool) : ActionOut :=
  let st := refresh_metadata st0
  let st := { st with res := { st.res with category := st.res.category ||| SYNC } }
  if is_modified st (some ["sync", "upload"]) then
    sync_upload_phase st force
  else
    sync_install_phase st force ["not uploaded: no local changes"]

/-- `rdsl.is_ignored(resource)`: `bool(category & IGNORE)`. -/
def is_ignored (r : FileRes) : Bool :=
  decide (r.category &&& IGNORE ≠ 0)

/-- `rdsl.is_installed(resource)`: `bool(category & INSTALL)`. -/
def is_installed (r : FileRes) : Bool :=
  decide (r.category &&& INSTALL ≠ 0)

/-- `rdsl.is_uploaded(resource)`: `bool(category & UPLOAD)`. -/
def is_uploaded (r : FileRes) : Bool :=
  decide (r.category &&& UPLOAD ≠ 0)

/-- `rdsl.is_synced(resource)`: `(category & SYNC) == SYNC`. -/
def is_synced (r : FileRes) : Bool :=
  decide (r.category &&& SYNC = SYNC)

/-- `rdsl.update`'s own `@recording` layer around a dispatched inner
action: the inner decorated action has already appended its entry; when
it returned a Result, update's wrapper appends a second entry under the
action name "update"; a fatal error bypasses the wrapper. -/
def update_record_wrap (o : ActionOut) : ActionOut :=
  match o with
  | .error e => .error e
  | .ok (s, r) => .ok (record "update" s r.success r.message, r)

/-- The dispatch of `rdsl.update` (rdsl.py lines 165-174) for a `File`
resource (which has no `update` method, so the `hasattr` branch is
skipped): SYNC category calls the decorated `sync`, INSTALL-only the
decorated `install`, UPLOAD-only the decorated `upload`, each with no
arguments (force defaults to False); anything else raises a fatal
AppError. -/
def update_dispatch (st : St) : ActionOut :=
  if is_synced st.res then update_record_wrap (rdsl_sync st false)
  else if is_installed st.res then update_record_wrap (rdsl_install st false)
  else if is_uploaded st.res then update_record_wrap (rdsl_upload st false)
  else .error (.app "don't know how to update", st)

/-- `rdsl.update(resource)` (rdsl.py lines 144-174) for the embedded
`File` resource: after its own `@refresh_resource` step, an ignored
resource fails fast with its own single history entry; otherwise the
category dispatch runs, and a dispatching update that returns a Result
has appended TWO entries (the inner decorated action's and update's
own). -/
def rdsl_update (st0 : St) : ActionOut :=
  let st := refresh_metadata st0
  if is_ignored st.res then
    let r := mkFail ["not updated: File is ignored"]
    .ok (record "update" st false r.message, r)
  else update_dispatch st

/-- `rdsl.move(resource, path)` (rdsl.py lines 289-314): fail when the
registry already holds the cache key of (newPath, uri); else relocate
the local file (`shutil.move`, which raises when the source is absent)
and update the resource's path.  The registry itself is not touched. -/
def rdsl_move (st : St) (path : String) : ActionOut :=
  let new_key := cache_key path st.res.uri
  if (alist_get st.registry new_key).isSome then
    let r := mkFail ["not moved: target resource already exists: " ++ new_key]
    .ok (record "move" st false r.message, r)
  else
    match alist_get st.files st.res.path with
    | none => .error (.os "shutil.move: no such file or directory", st)
    | some fd =>
        let st1 :=
          { st with
              files := alist_set (alist_erase st.files st.res.path) path fd,
              res := { st.res with path := path } }
        let r := mkOk ["moved " ++ st.res.path ++ " to " ++ path]
        .ok (record "move" st1 true r.message, r)

/-- The characters before the first `:`, and whether a `:` occurs. -/
def takeUntilColon : List Char → List Char × Bool
  | [] => ([], false)
  | c :: t =>
      if c = ':' then ([], true)
      else
        let (p, b) := takeUntilColon t
        (c :: p, b)

/-- The scheme of a URI as `urllib.parse.urlparse` extracts it: the
alphabetic-initial run before the first `:`, provided that run is
non-empty and contains no `/`; otherwise the empty string. -/
def uriScheme (uri : String) : String :=
  let (pre, sawColon) := takeUntilColon uri.data
  let headAlpha :=
    match pre.head? with
    | some c => c.isAlpha
    | none => false
  if sawColon && !(pre.elem '/') && headAlpha then String.mk pre
  else ""

/-- `rdsl.is_ugor(resource)`: the uri has no scheme. -/
def is_ugor (r : FileRes) : Bool :=
  decide (uriScheme r.uri = "")

/-- `getattr(resource, 'etag', None)` as evaluated in `rdsl.delete`: no
`Resource` subclass in src/rogu/resources.py defines an attribute named
`etag` (the stored ETag lives in `last_etag`), so the default `None` is
always returned. -/
def delete_etag_arg (_r : FileRes) : Option String := none

/-- `getattr(resource, 'modified', None)` as evaluated in
`rdsl.delete`: likewise always `None` (`last_modified` is the stored
attribute). -/
def delete_modified_arg (_r : FileRes) : Option Nat := none

/-- The remote phase of `rdsl.delete`: for an Ugor resource with
`remote=True`, issue the remote DELETE; an error propagates fatally -
there is no try/except around the `ugor.delete` call. -/
def delete_remote_step (st : St) (remoteFlag force : Bool) :
    Except (Err × St) (St × List String) :=
  if is_ugor st.res && remoteFlag then
    match ugor_delete st (delete_etag_arg st.res) (delete_modified_arg st.res) force with
    | .error e => .error (e, st)
    | .ok st1 => .ok (st1, ["deleted Ugor file"])
  else .ok (st, [])

/-- The local phase of `rdsl.delete`: with `local=True`, remove the
local path (tree delete for directories; "no local copy to delete" when
the path is absent). -/
def delete_local_step (st : St) (localFlag : Bool) (msgs : List String) :
    St × List String :=
  if localFlag then
    match alist_get st.files st.res.path with
    | some _ =>
        ({ st with files := alist_erase st.files st.res.path },
         msgs ++ ["deleted local copy"])
    | none => (st, msgs ++ ["no local copy to delete"])
  else (st, msgs)

/-- The final phase of `rdsl.delete`: `del cache.resources[resource]`,
which raises KeyError when the key is absent. -/
def delete_cache_step (st : St) (msgs : List String) : ActionOut :=
  if (alist_get st.registry (res_key st.res)).isSome then
    let st3 := { st with registry := alist_erase st.registry (res_key st.res) }
    let r := mkOk (msgs ++ ["deleted from cache"])
    .ok (record "delete" st3 true r.message, r)
  else .error (.os "KeyError", st)

/-- `rdsl.delete(resource, local, remote, force)` (rdsl.py lines
317-357): the conditional remote DELETE, then the optional local
removal, then the unconditional registry removal. -/
def rdsl_delete (st : St) (localFlag remoteFlag force : Bool) : ActionOut :=
  match delete_remote_step st remoteFlag force with
  | .error e => .error e
  | .ok (st1, msgs1) =>
      let p := delete_local_step st1 localFlag msgs1
      delete_cache_step p.1 p.2

/-- `uri.endswith('.git')`, computed on the character lists so that it
reduces in the kernel. -/
def strEndsWith (s suffix : String) : Bool :=
  suffix.data.isSuffixOf s.data

/-- How the local path presents to `os.path.isfile`/`isdir` during
`rdsl.fetch` type inference. -/
inductive PathKind
  | file
  | dir
  | absent
deriving Repr, DecidableEq

/-- A freshly constructed resource of the given class: default
category, no remote bookkeeping yet. -/
def mkRes (k : RKind) (path uri : String) : FileRes :=
  { kind := k, path := path, uri := uri, category := 0,
    lastEtag := none, lastModified := none, description := none }

/-- The type-inference chain of `rdsl.fetch` (rdsl.py lines 133-141):
`File` for an existing file path, `Repo` for a uri ending in `.git`,
`Archive` when `is_archive(uri)` or the path is a directory, and `File`
otherwise. -/
def infer_kind (isArchive : String → Bool) (pk : PathKind) (uri : String) : RKind :=
  if pk = .file then .file
  else if strEndsWith uri ".git" then .repo
  else if isArchive uri || pk = .dir then .archive
  else .file

/-- `rdsl.fetch(path, uri, type=...)` (rdsl.py lines 98-141): return
the stored resource when the registry holds `cache_key(path, uri)`
(failing when a forced type disagrees with the stored class); otherwise
build a new resource - of the forced type when given, else of
`infer_kind`.  `is_archive` is absent from src/rogu/resources.py (only
this caller imports it), so it is taken as an opaque predicate
parameter. -/
def fetch (isArchive : String → Bool) (pk : PathKind) (st : St)
    (path uri : String) (forcedType : Option RKind) : Except Err FileRes :=
  match alist_get st.registry (cache_key path uri) with
  | some r =>
      match forcedType with
      | some k => if r.kind = k then .ok r else .error (.app "expected forced resource type")
      | none => .ok r
  | none =>
      match forcedType with
      | some k => .ok (mkRes k path uri)
      | none => .ok (mkRes (infer_kind isArchive pk uri) path uri)

-- CONCRETE STATES USED BY COUNTEREXAMPLES AND WITNESSES

/-- A synced-then-locally-referenced resource: stored ETag matches the
remote, but the remote baseline hash differs from the current local
content. -/
def c2res : FileRes :=
  { kind := .file, path := "p", uri := "f", category := 0,
    lastEtag := some "e", lastModified := some 5, description := none }

/-- State where `divergence = 1` (only local changed) while the history
holds a matching ok install entry for the current fingerprint. -/
def c2st : St :=
  { files := [("p", ⟨"h2", 9⟩)],
    remote := some ⟨"old", "e", 5, some "h", none⟩,
    registry := [],
    hist := [{ ok := true, action := "install", key := res_key c2res,
               localHash := "h2", message := "" }],
    res := c2res,
    clock := 20 }

/-- A never-synced resource (no stored ETag) whose local and remote
copies both exist with different content, the local one newer. -/
def c3res : FileRes :=
  { kind := .file, path := "p", uri := "f", category := 0,
    lastEtag := none, lastModified := none, description := none }

/-- State where `divergence = 2` (never synced, both exist, local
newer) and the history is empty. -/
def c3st : St :=
  { files := [("p", ⟨"lc", 7⟩)],
    remote := some ⟨"rc", "re", 3, none, none⟩,
    registry := [],
    hist := [],
    res := c3res,
    clock := 20 }

/-- An installed resource (INSTALL bit set) whose local path has been
removed. -/
def c4res : FileRes :=
  { kind := .file, path := "p", uri := "f", category := INSTALL,
    lastEtag := some "e", lastModified := some 5, description := none }

/-- State with the INSTALL category bit set but no local file. -/
def c4st : St :=
  { files := [], remote := none, registry := [], hist := [],
    res := c4res, clock := 20 }

/-- A resource whose stored ETag (`e1`) is stale: the remote object has
moved on to ETag `e2`. -/
def c5res : FileRes :=
  { kind := .file, path := "p", uri := "f", category := INSTALL,
    lastEtag := some "e1", lastModified := some 5, description := none }

/-- State for the delete scenario: local copy, remote object with a
changed ETag, and a registry entry. -/
def c5st : St :=
  { files := [("p", ⟨"lc", 7⟩)],
    remote := some ⟨"rc", "e2", 9, some "h", none⟩,
    registry := [(res_key c5res, c5res)],
    hist := [],
    res := c5res,
    clock := 20 }

/-- Variant of the delete scenario in which the remote DELETE fails
(the object is already gone, so the server answers 404): local copy and
registry entry present. -/
def c5stB : St :=
  { files := [("p", ⟨"lc", 7⟩)],
    remote := none,
    registry := [(res_key c5res, c5res)],
    hist := [],
    res := c5res,
    clock := 20 }

/-- State where install must abort fatally: nothing exists locally and
the remote object is absent (the conditional GET raises 404). -/
def c6st : St :=
  { files := [], remote := none, registry := [], hist := [],
    res := c3res, clock := 20 }

/-- A category=INSTALL resource otherwise identical to `c2res`, for
exercising update's dispatch. -/
def c6res : FileRes :=
  { kind := .file, path := "p", uri := "f", category := INSTALL,
    lastEtag := some "e", lastModified := some 5, description := none }

/-- State where `update` dispatches to install, which succeeds as a
304 no-op: update then appends a second history entry of its own. -/
def c6stB : St :=
  { files := [("p", ⟨"h2", 9⟩)],
    remote := some ⟨"old", "e", 5, some "h", none⟩,
    registry := [],
    hist := [{ ok := true, action := "install", key := res_key c6res,
               localHash := "h2", message := "" }],
    res := c6res,
    clock := 20 }

/-- State with an empty registry, for fetch type inference. -/
def c7st : St :=
  { files := [], remote := none, registry := [], hist := [],
    res := c3res, clock := 20 }

/-- A registered resource with remote bookkeeping, to be moved. -/
def c9res : FileRes :=
  { kind := .file, path := "p", uri := "f", category := INSTALL,
    lastEtag := some "e9", lastModified := some 5, description := none }

/-- State holding `c9res` in the registry with its local file. -/
def c9st : St :=
  { files := [("p", ⟨"lc", 7⟩)],
    remote := some ⟨"rc", "e9", 3, some "lc", none⟩,
    registry := [(res_key c9res, c9res)],
    hist := [],
    res := c9res,
    clock := 20 }

/-- C1. For every Ugor-backed resource state, `divergence` returns a
value in {-2,-1,0,1,2} and agrees with the spec's ordered decision
table (`divergence_spec`, transcribed from the claim): remote absent
gives +1 iff local exists else 0; local absent with remote present
gives -1; never synced (last ETag unset) with both present gives ±2 by
timestamp; never uploaded (remote baseline hash unset) gives -1 iff the
remote ETag changed else 0; both changed gives ±2 by timestamp; only
local changed +1; only remote changed -1; neither 0. -/
theorem divergence_matches_spec (st : Rogu.St) :
    Rogu.divergence st = Rogu.divergence_spec st ∧
    (Rogu.divergence st = -2 ∨ Rogu.divergence st = -1 ∨ Rogu.divergence st = 0 ∨
      Rogu.divergence st = 1 ∨ Rogu.divergence st = 2) := by
  unfold Rogu.divergence Rogu.divergence_spec
  rcases hrem : st.remote with _ | header
  · by_cases hex : Rogu.exists_local st <;> simp [hex]
  · by_cases hex : Rogu.exists_local st
    · rcases hetag : st.res.lastEtag with _ | oe
      · by_cases hm : header.modified > Rogu.path_modified st <;> simp [hex, hetag, hm]
      · rcases hdata : header.data2 with _ | oh
        · by_cases he : oe = header.etag <;> simp [hex, hetag, hdata, he]
        · by_cases hl : oh = Rogu.path_hash st <;>
            by_cases he : oe = header.etag <;>
            by_cases hm : header.modified > Rogu.path_modified st <;>
            simp [hex, hetag, hdata, hl, he, hm]
    · simp [hex]

-- FRAME LEMMAS (shared helpers)

theorem desc_update_kind (r : FileRes) (d? : Option String) :
    (Rogu.desc_update r d?).kind = r.kind := by
  unfold Rogu.desc_update
  rcases d? with _ | d
  · rfl
  · by_cases hd : d = "" <;> simp [hd]

theorem desc_update_path (r : FileRes) (d? : Option String) :
    (Rogu.desc_update r d?).path = r.path := by
  unfold Rogu.desc_update
  rcases d? with _ | d
  · rfl
  · by_cases hd : d = "" <;> simp [hd]

theorem desc_update_uri (r : FileRes) (d? : Option String) :
    (Rogu.desc_update r d?).uri = r.uri := by
  unfold Rogu.desc_update
  rcases d? with _ | d
  · rfl
  · by_cases hd : d = "" <;> simp [hd]

theorem desc_update_category (r : FileRes) (d? : Option String) :
    (Rogu.desc_update r d?).category = r.category := by
  unfold Rogu.desc_update
  rcases d? with _ | d
  · rfl
  · by_cases hd : d = "" <;> simp [hd]

theorem refresh_files (st : St) : (Rogu.refresh_metadata st).files = st.files := by
  unfold Rogu.refresh_metadata
  split <;> rfl

theorem refresh_remote (st : St) : (Rogu.refresh_metadata st).remote = st.remote := by
  unfold Rogu.refresh_metadata
  split <;> rfl

theorem refresh_registry (st : St) : (Rogu.refresh_metadata st).registry = st.registry := by
  unfold Rogu.refresh_metadata
  split <;> rfl

theorem refresh_hist (st : St) : (Rogu.refresh_metadata st).hist = st.hist := by
  unfold Rogu.refresh_metadata
  split <;> rfl

theorem refresh_clock (st : St) : (Rogu.refresh_metadata st).clock = st.clock := by
  unfold Rogu.refresh_metadata
  split <;> rfl

theorem refresh_path (st : St) : (Rogu.refresh_metadata st).res.path = st.res.path := by
  unfold Rogu.refresh_metadata
  split <;> rfl

theorem refresh_uri (st : St) : (Rogu.refresh_metadata st).res.uri = st.res.uri := by
  unfold Rogu.refresh_metadata
  split <;> rfl

theorem refresh_of_exists (st : St) (h : Rogu.exists_local st = true) :
    Rogu.refresh_metadata st = st := by
  simp [Rogu.refresh_metadata, h]

theorem ugor_install_frame (st : St) (f : Bool) (st' : St) (c : Option String)
    (h : Rogu.ugor_install st f = .ok (st', c)) :
    st'.files = st.files ∧ st'.remote = st.remote ∧ st'.registry = st.registry ∧
    st'.hist = st.hist ∧ st'.clock = st.clock ∧ st'.res.kind = st.res.kind ∧
    st'.res.category = st.res.category ∧ st'.res.path = st.res.path ∧
    st'.res.uri = st.res.uri := by
  unfold Rogu.ugor_install at h
  split at h
  · simp at h
  · simp only [Except.ok.injEq, Prod.mk.injEq] at h
    obtain ⟨h1, _⟩ := h
    subst h1
    exact ⟨rfl, rfl, rfl, rfl, rfl, rfl, rfl, rfl, rfl⟩
  · rename_i rf heq
    simp only [Except.ok.injEq, Prod.mk.injEq] at h
    obtain ⟨h1, _⟩ := h
    subst h1
    exact ⟨rfl, rfl, rfl, rfl, rfl, desc_update_kind st.res rf.description,
      desc_update_category st.res rf.description,
      desc_update_path st.res rf.description, desc_update_uri st.res rf.description⟩

theorem file_install_frame (st : St) (f : Bool) (st' : St)
    (h : Rogu.file_install st f = .ok st') :
    st'.remote = st.remote ∧ st'.registry = st.registry ∧ st'.hist = st.hist ∧
    st'.clock = st.clock ∧ st'.res.kind = st.res.kind ∧
    st'.res.category = st.res.category ∧ st'.res.path = st.res.path ∧
    st'.res.uri = st.res.uri := by
  unfold Rogu.file_install at h
  split at h
  · simp at h
  · rename_i st1 heq
    simp only [Except.ok.injEq] at h
    subst h
    obtain ⟨_, h2, h3, h4, h5, h6, h7, h8, h9⟩ := ugor_install_frame st f st1 none heq
    exact ⟨h2, h3, h4, h5, h6, h7, h8, h9⟩
  · rename_i st1 content heq
    simp only [Except.ok.injEq] at h
    subst h
    obtain ⟨_, h2, h3, h4, h5, h6, h7, h8, h9⟩ :=
      ugor_install_frame st f st1 (some content) heq
    exact ⟨h2, h3, h4, h5, h6, h7, h8, h9⟩

theorem file_upload_frame (st : St) (force : Bool) (st' : St)
    (h : Rogu.file_upload st force = .ok st') :
    st'.files = st.files ∧ st'.registry = st.registry ∧ st'.hist = st.hist ∧
    st'.clock = st.clock ∧ st'.res.kind = st.res.kind ∧
    st'.res.category = st.res.category ∧ st'.res.path = st.res.path ∧
    st'.res.uri = st.res.uri := by
  unfold Rogu.file_upload at h
  split at h
  · simp at h
  · unfold Rogu.ugor_upload at h
    simp at h

theorem alist_get_set_self {α : Type} (l : List (String × α)) (k : String) (v : α) :
    Rogu.alist_get (Rogu.alist_set l k v) k = some v := by
  simp [Rogu.alist_set, Rogu.alist_get]

theorem file_install_304 (st : St) (force : Bool) (rf : RemoteObj)
    (hr : st.remote = some rf)
    (hnm : Rogu.notMod (if force then none else st.res.lastEtag)
      (if force then none else st.res.lastModified) rf = true) :
    Rogu.file_install st force = .ok st := by
  unfold Rogu.file_install Rogu.ugor_install Rogu.ugor_get
  rw [hr]
  simp [hnm]

theorem file_install_transfer (st : St) (force : Bool) (rf : RemoteObj)
    (hr : st.remote = some rf)
    (hnm : Rogu.notMod (if force then none else st.res.lastEtag)
      (if force then none else st.res.lastModified) rf = false) :
    ∃ s, Rogu.file_install st force = .ok s ∧
      Rogu.alist_get s.files s.res.path = some ⟨rf.content, st.clock⟩ ∧
      s.res.lastEtag = some rf.etag ∧ s.res.lastModified = some rf.modified ∧
      s.res.category = st.res.category ∧ s.hist = st.hist ∧
      s.remote = st.remote ∧ s.registry = st.registry ∧
      s.res.path = st.res.path := by
  unfold Rogu.file_install Rogu.ugor_install Rogu.ugor_get
  rw [hr]
  simp only [hnm, Bool.false_eq_true, if_false]
  refine ⟨_, rfl, ?_, rfl, rfl, ?_, rfl, rfl, rfl, ?_⟩
  · exact alist_get_set_self _ _ _
  · exact desc_update_category st.res rf.description
  · exact desc_update_path st.res rf.description

theorem file_install_404 (st : St) (force : Bool) (hr : st.remote = none) :
    Rogu.file_install st force = .error (.ugor 404 "Not Found") := by
  unfold Rogu.file_install Rogu.ugor_install Rogu.ugor_get
  rw [hr]

theorem file_upload_absent (st : St) (force : Bool)
    (h : Rogu.alist_get st.files st.res.path = none) :
    Rogu.file_upload st force = .error (.blocked (st.res.path ++ " does not exist")) := by
  unfold Rogu.file_upload
  rw [h]

theorem file_upload_typeerror (st : St) (force : Bool) (fd : FileData)
    (hf : Rogu.alist_get st.files st.res.path = some fd) :
    Rogu.file_upload st force =
      .error (.os "TypeError: put() missing required positional argument o") := by
  unfold Rogu.file_upload
  rw [hf]
  rfl

theorem install_body_category (st : St) (force : Bool) :
    (Rogu.outSt (Rogu.install_body st force)).res.category = st.res.category := by
  unfold Rogu.install_body
  rcases hfi : Rogu.file_install st force with e | s
  · rcases e with m | m | ⟨c, m⟩ | m <;> simp [Rogu.outSt, Rogu.record]
  · simp [Rogu.outSt, Rogu.record, (file_install_frame st force s hfi).2.2.2.2.2.1]

theorem upload_body_category (st : St) (force : Bool) :
    (Rogu.outSt (Rogu.upload_body st force)).res.category = st.res.category := by
  unfold Rogu.upload_body
  rcases hfi : Rogu.file_upload st force with e | s
  · rcases e with m | m | ⟨c, m⟩ | m <;> simp [Rogu.outSt, Rogu.record]
  · simp [Rogu.outSt, Rogu.record, (file_upload_frame st force s hfi).2.2.2.2.2.1]

theorem install_body_304 (st : St) (force : Bool) (rf : RemoteObj)
    (hrem : st.remote = some rf)
    (hnm : Rogu.notMod (if force then none else st.res.lastEtag)
      (if force then none else st.res.lastModified) rf = true) :
    Rogu.install_body st force =
      .ok (Rogu.record "install" st true
             (Rogu.mkOk ["installed " ++ st.res.uri]).message,
           Rogu.mkOk ["installed " ++ st.res.uri]) := by
  unfold Rogu.install_body
  rw [file_install_304 st force rf hrem hnm]

theorem install_body_transfer (st : St) (force : Bool) (rf : RemoteObj)
    (hrem : st.remote = some rf)
    (hnm : Rogu.notMod (if force then none else st.res.lastEtag)
      (if force then none else st.res.lastModified) rf = false) :
    Rogu.outSuccess (Rogu.install_body st force) = true ∧
    Rogu.alist_get (Rogu.outSt (Rogu.install_body st force)).files st.res.path =
      some ⟨rf.content, st.clock⟩ ∧
    (Rogu.outSt (Rogu.install_body st force)).res.lastEtag = some rf.etag ∧
    (Rogu.outSt (Rogu.install_body st force)).res.lastModified = some rf.modified := by
  obtain ⟨s, hs, h1, h2, h3, _, _, _, _, hpath⟩ :=
    file_install_transfer st force rf hrem hnm
  unfold Rogu.install_body
  rw [hs]
  refine ⟨rfl, ?_, ?_, ?_⟩
  · show Rogu.alist_get s.files st.res.path = some ⟨rf.content, st.clock⟩
    rw [← hpath]
    exact h1
  · exact h2
  · exact h3

theorem upload_body_blocked (st : St) (force : Bool)
    (h : Rogu.alist_get st.files st.res.path = none) :
    Rogu.outSuccess (Rogu.upload_body st force) = false ∧
    (Rogu.outSt (Rogu.upload_body st force)).remote = st.remote ∧
    (Rogu.outSt (Rogu.upload_body st force)).res = st.res := by
  unfold Rogu.upload_body
  rw [file_upload_absent st force h]
  exact ⟨rfl, rfl, rfl⟩

theorem upload_body_typeerror (st : St) (force : Bool) (fd : FileData)
    (hf : Rogu.alist_get st.files st.res.path = some fd) :
    Rogu.isFatal (Rogu.upload_body st force) = true ∧
    Rogu.outSt (Rogu.upload_body st force) = st := by
  unfold Rogu.upload_body
  rw [file_upload_typeerror st force fd hf]
  exact ⟨rfl, rfl⟩

theorem rdsl_install_eq_body (st : St) (force : Bool)
    (hg : (Rogu.is_modified (Rogu.refresh_metadata st) (some ["install"]) && !force) = false) :
    Rogu.rdsl_install st force =
      Rogu.install_body
        { Rogu.refresh_metadata st with res :=
            { (Rogu.refresh_metadata st).res with
                category := (Rogu.refresh_metadata st).res.category ||| Rogu.INSTALL } }
        force := by
  unfold Rogu.rdsl_install
  simp [hg]

theorem rdsl_upload_eq_body (st : St) (force : Bool)
    (hg : (!(Rogu.is_modified (Rogu.refresh_metadata st) (some ["upload"])) && !force) = false) :
    Rogu.rdsl_upload st force =
      Rogu.upload_body
        { Rogu.refresh_metadata st with res :=
            { (Rogu.refresh_metadata st).res with
                category := (Rogu.refresh_metadata st).res.category ||| Rogu.UPLOAD } }
        force := by
  unfold Rogu.rdsl_upload
  simp [hg]

theorem ugor_delete_frame (st : St) (e : Option String) (m : Option Nat)
    (force : Bool) (s : St) (h : Rogu.ugor_delete st e m force = .ok s) :
    s.files = st.files ∧ s.registry = st.registry ∧ s.hist = st.hist ∧
    s.res = st.res ∧ s.clock = st.clock ∧ s.remote = none := by
  unfold Rogu.ugor_delete at h
  split at h
  · simp at h
  · split at h
    · simp only [Except.ok.injEq] at h
      subst h
      exact ⟨rfl, rfl, rfl, rfl, rfl, rfl⟩
    · simp at h

theorem install_body_hist_ok (st : St) (force : Bool) (s : St) (r : Result)
    (h : Rogu.install_body st force = .ok (s, r)) :
    s.hist.length = st.hist.length + 1 := by
  unfold Rogu.install_body at h
  simp only [] at h
  split at h
  · simp only [Except.ok.injEq, Prod.mk.injEq] at h
    obtain ⟨h1, _⟩ := h
    subst h1
    simp [Rogu.record]
  · simp at h
  · rename_i st1 heq
    simp only [Except.ok.injEq, Prod.mk.injEq] at h
    obtain ⟨h1, _⟩ := h
    subst h1
    have hfr := file_install_frame _ force st1 heq
    simp [Rogu.record, hfr.2.2.1]

theorem install_body_hist_err (st : St) (force : Bool) (e : Err) (s : St)
    (h : Rogu.install_body st force = .error (e, s)) : s.hist = st.hist := by
  unfold Rogu.install_body at h
  simp only [] at h
  split at h
  · simp at h
  · simp only [Except.error.injEq, Prod.mk.injEq] at h
    obtain ⟨_, h2⟩ := h
    subst h2
    rfl
  · simp at h

theorem install_hist_ok (st : St) (force : Bool) (s : St) (r : Result)
    (h : Rogu.rdsl_install st force = .ok (s, r)) :
    s.hist.length = st.hist.length + 1 := by
  unfold Rogu.rdsl_install at h
  simp only [] at h
  split at h
  · simp only [Except.ok.injEq, Prod.mk.injEq] at h
    obtain ⟨h1, _⟩ := h
    subst h1
    simp [Rogu.record, refresh_hist]
  · have := install_body_hist_ok _ force s r h
    simpa [refresh_hist] using this

theorem install_hist_err (st : St) (force : Bool) (e : Err) (s : St)
    (h : Rogu.rdsl_install st force = .error (e, s)) : s.hist = st.hist := by
  unfold Rogu.rdsl_install at h
  simp only [] at h
  split at h
  · simp at h
  · have := install_body_hist_err _ force e s h
    simpa [refresh_hist] using this

theorem upload_body_hist_ok (st : St) (force : Bool) (s : St) (r : Result)
    (h : Rogu.upload_body st force = .ok (s, r)) :
    s.hist.length = st.hist.length + 1 := by
  unfold Rogu.upload_body at h
  simp only [] at h
  split at h
  · simp only [Except.ok.injEq, Prod.mk.injEq] at h
    obtain ⟨h1, _⟩ := h
    subst h1
    simp [Rogu.record]
  · simp at h
  · rename_i st1 heq
    simp only [Except.ok.injEq, Prod.mk.injEq] at h
    obtain ⟨h1, _⟩ := h
    subst h1
    have hfr := file_upload_frame _ force st1 heq
    simp [Rogu.record, hfr.2.2.1]

theorem upload_body_hist_err (st : St) (force : Bool) (e : Err) (s : St)
    (h : Rogu.upload_body st force = .error (e, s)) : s.hist = st.hist := by
  unfold Rogu.upload_body at h
  simp only [] at h
  split at h
  · simp at h
  · simp only [Except.error.injEq, Prod.mk.injEq] at h
    obtain ⟨_, h2⟩ := h
    subst h2
    rfl
  · simp at h

theorem upload_hist_ok (st : St) (force : Bool) (s : St) (r : Result)
    (h : Rogu.rdsl_upload st force = .ok (s, r)) :
    s.hist.length = st.hist.length + 1 := by
  unfold Rogu.rdsl_upload at h
  simp only [] at h
  split at h
  · simp only [Except.ok.injEq, Prod.mk.injEq] at h
    obtain ⟨h1, _⟩ := h
    subst h1
    simp [Rogu.record, refresh_hist]
  · have := upload_body_hist_ok _ force s r h
    simpa [refresh_hist] using this

theorem upload_hist_err (st : St) (force : Bool) (e : Err) (s : St)
    (h : Rogu.rdsl_upload st force = .error (e, s)) : s.hist = st.hist := by
  unfold Rogu.rdsl_upload at h
  simp only [] at h
  split at h
  · simp at h
  · have := upload_body_hist_err _ force e s h
    simpa [refresh_hist] using this

theorem sync_phase_hist_ok (st : St) (force : Bool) (msgs : List String)
    (s : St) (r : Result)
    (h : Rogu.sync_install_phase st force msgs = .ok (s, r)) :
    s.hist.length = st.hist.length + 1 := by
  unfold Rogu.sync_install_phase at h
  simp only [] at h
  split at h
  · split at h
    · simp only [Except.ok.injEq, Prod.mk.injEq] at h
      obtain ⟨h1, _⟩ := h
      subst h1
      simp [Rogu.record]
    · simp at h
    · rename_i st1 heq
      simp only [Except.ok.injEq, Prod.mk.injEq] at h
      obtain ⟨h1, _⟩ := h
      subst h1
      have hfr := file_install_frame _ force st1 heq
      simp [Rogu.record, hfr.2.2.1]
  · simp only [Except.ok.injEq, Prod.mk.injEq] at h
    obtain ⟨h1, _⟩ := h
    subst h1
    simp [Rogu.record]

theorem sync_phase_hist_err (st : St) (force : Bool) (msgs : List String)
    (e : Err) (s : St)
    (h : Rogu.sync_install_phase st force msgs = .error (e, s)) :
    s.hist = st.hist := by
  unfold Rogu.sync_install_phase at h
  simp only [] at h
  split at h
  · split at h
    · simp at h
    · simp only [Except.error.injEq, Prod.mk.injEq] at h
      obtain ⟨_, h2⟩ := h
      subst h2
      rfl
    · simp at h
  · simp at h

theorem sync_upload_phase_hist_ok (st : St) (force : Bool) (s : St) (r : Result)
    (h : Rogu.sync_upload_phase st force = .ok (s, r)) :
    s.hist.length = st.hist.length + 1 := by
  unfold Rogu.sync_upload_phase at h
  simp only [] at h
  split at h
  · exact sync_phase_hist_ok _ force _ s r h
  · simp at h
  · rename_i st1 heq
    simp only [Except.ok.injEq, Prod.mk.injEq] at h
    obtain ⟨h1, _⟩ := h
    subst h1
    have hfr := file_upload_frame _ force st1 heq
    simp [Rogu.record, hfr.2.2.1]

theorem sync_upload_phase_hist_err (st : St) (force : Bool) (e : Err) (s : St)
    (h : Rogu.sync_upload_phase st force = .error (e, s)) : s.hist = st.hist := by
  unfold Rogu.sync_upload_phase at h
  simp only [] at h
  split at h
  · exact sync_phase_hist_err _ force _ e s h
  · simp only [Except.error.injEq, Prod.mk.injEq] at h
    obtain ⟨_, h2⟩ := h
    subst h2
    rfl
  · simp at h

theorem sync_hist_ok (st : St) (force : Bool) (s : St) (r : Result)
    (h : Rogu.rdsl_sync st force = .ok (s, r)) :
    s.hist.length = st.hist.length + 1 := by
  unfold Rogu.rdsl_sync at h
  simp only [] at h
  split at h
  · have := sync_upload_phase_hist_ok _ force s r h
    simpa [refresh_hist] using this
  · have := sync_phase_hist_ok _ force _ s r h
    simpa [refresh_hist] using this

theorem sync_hist_err (st : St) (force : Bool) (e : Err) (s : St)
    (h : Rogu.rdsl_sync st force = .error (e, s)) : s.hist = st.hist := by
  unfold Rogu.rdsl_sync at h
  simp only [] at h
  split at h
  · have := sync_upload_phase_hist_err _ force e s h
    simpa [refresh_hist] using this
  · have := sync_phase_hist_err _ force _ e s h
    simpa [refresh_hist] using this

theorem move_hist_ok (st : St) (p : String) (s : St) (r : Result)
    (h : Rogu.rdsl_move st p = .ok (s, r)) :
    s.hist.length = st.hist.length + 1 := by
  unfold Rogu.rdsl_move at h
  simp only [] at h
  split at h
  · simp only [Except.ok.injEq, Prod.mk.injEq] at h
    obtain ⟨h1, _⟩ := h
    subst h1
    simp [Rogu.record]
  · split at h
    · simp at h
    · simp only [Except.ok.injEq, Prod.mk.injEq] at h
      obtain ⟨h1, _⟩ := h
      subst h1
      simp [Rogu.record]

theorem move_hist_err (st : St) (p : String) (e : Err) (s : St)
    (h : Rogu.rdsl_move st p = .error (e, s)) : s.hist = st.hist := by
  unfold Rogu.rdsl_move at h
  simp only [] at h
  split at h
  · simp at h
  · split at h
    · simp only [Except.error.injEq, Prod.mk.injEq] at h
      obtain ⟨_, h2⟩ := h
      subst h2
      rfl
    · simp at h

theorem delete_remote_ok (st : St) (rf ff : Bool) (st1 : St) (m : List String)
    (h : Rogu.delete_remote_step st rf ff = .ok (st1, m)) :
    st1.files = st.files ∧ st1.registry = st.registry ∧ st1.hist = st.hist ∧
    st1.res = st.res ∧ st1.clock = st.clock := by
  unfold Rogu.delete_remote_step at h
  split at h
  · split at h
    · simp at h
    · rename_i s2 heq2
      simp only [Except.ok.injEq, Prod.mk.injEq] at h
      obtain ⟨h1, _⟩ := h
      subst h1
      obtain ⟨a, b, c, d, e, _⟩ := ugor_delete_frame st _ _ ff s2 heq2
      exact ⟨a, b, c, d, e⟩
  · simp only [Except.ok.injEq, Prod.mk.injEq] at h
    obtain ⟨h1, _⟩ := h
    subst h1
    exact ⟨rfl, rfl, rfl, rfl, rfl⟩

theorem delete_remote_err (st : St) (rf ff : Bool) (e : Err) (s : St)
    (h : Rogu.delete_remote_step st rf ff = .error (e, s)) : s = st := by
  unfold Rogu.delete_remote_step at h
  split at h
  · split at h
    · simp only [Except.error.injEq, Prod.mk.injEq] at h
      exact h.2.symm
    · simp at h
  · simp at h

theorem delete_local_frame (st : St) (lf : Bool) (m : List String) :
    (Rogu.delete_local_step st lf m).1.registry = st.registry ∧
    (Rogu.delete_local_step st lf m).1.hist = st.hist ∧
    (Rogu.delete_local_step st lf m).1.res = st.res ∧
    (Rogu.delete_local_step st lf m).1.remote = st.remote ∧
    (Rogu.delete_local_step st lf m).1.clock = st.clock := by
  unfold Rogu.delete_local_step
  split
  · split <;> exact ⟨rfl, rfl, rfl, rfl, rfl⟩
  · exact ⟨rfl, rfl, rfl, rfl, rfl⟩

theorem delete_cache_ok (st : St) (m : List String) (s : St) (r : Result)
    (h : Rogu.delete_cache_step st m = .ok (s, r)) :
    s.hist.length = st.hist.length + 1 ∧ s.res = st.res ∧ s.remote = st.remote ∧
    s.files = st.files ∧
    s.registry = Rogu.alist_erase st.registry (Rogu.res_key st.res) := by
  unfold Rogu.delete_cache_step at h
  split at h
  · simp only [Except.ok.injEq, Prod.mk.injEq] at h
    obtain ⟨h1, _⟩ := h
    subst h1
    simp [Rogu.record]
  · simp at h

theorem delete_cache_err (st : St) (m : List String) (e : Err) (s : St)
    (h : Rogu.delete_cache_step st m = .error (e, s)) : s = st := by
  unfold Rogu.delete_cache_step at h
  split at h
  · simp at h
  · simp only [Except.error.injEq, Prod.mk.injEq] at h
    exact h.2.symm

theorem delete_hist_ok (st : St) (lf rf ff : Bool) (s : St) (r : Result)
    (h : Rogu.rdsl_delete st lf rf ff = .ok (s, r)) :
    s.hist.length = st.hist.length + 1 := by
  unfold Rogu.rdsl_delete at h
  split at h
  · simp at h
  · rename_i st1 msgs1 heq
    have h1 := (delete_remote_ok st rf ff st1 msgs1 heq).2.2.1
    have h2 := (delete_local_frame st1 lf msgs1).2.1
    have h3 := (delete_cache_ok _ _ s r h).1
    rw [h3, h2, h1]

theorem delete_hist_err (st : St) (lf rf ff : Bool) (e : Err) (s : St)
    (h : Rogu.rdsl_delete st lf rf ff = .error (e, s)) : s.hist = st.hist := by
  unfold Rogu.rdsl_delete at h
  split at h
  · rename_i eh heq
    simp only [Except.error.injEq] at h
    subst h
    rw [delete_remote_err st rf ff e s heq]
  · rename_i st1 msgs1 heq
    have h1 := (delete_remote_ok st rf ff st1 msgs1 heq).2.2.1
    have h2 := (delete_local_frame st1 lf msgs1).2.1
    rw [delete_cache_err _ _ e s h, h2, h1]

/-- C5. Evaluation of `delete(local=True, remote=True)` at the failing
input.  The resource's last-known ETag is `e1`, the remote object has
moved on to `e2`, yet the DELETE goes out with NO ETag precondition:
`rdsl.delete` reads `getattr(resource, 'etag', None)` although the
stored ETag lives in the `last_etag` attribute, so the argument is
always `None` and the unconditional DELETE succeeds where an
`If-Match: e1` would have been answered 412.  Moreover, when the remote
DELETE fails (404 in the second state), the error propagates fatally
and the local copy and registry entry survive, instead of the failure
being surfaced as Blocked with the removals still performed. -/
theorem delete_sends_no_etag_precondition :
    Rogu.delete_etag_arg Rogu.c5st.res = none ∧
    Rogu.c5st.res.lastEtag = some "e1" ∧
    (Rogu.c5st.remote.map Rogu.RemoteObj.etag) = some "e2" ∧
    Rogu.outSuccess (Rogu.rdsl_delete Rogu.c5st true true false) = true ∧
    (Rogu.outSt (Rogu.rdsl_delete Rogu.c5st true true false)).remote = none ∧
    (Rogu.outSt (Rogu.rdsl_delete Rogu.c5st true true false)).registry = [] ∧
    (Rogu.outSt (Rogu.rdsl_delete Rogu.c5st true true false)).files = [] ∧
    Rogu.isFatal (Rogu.rdsl_delete Rogu.c5stB true true false) = true ∧
    (Rogu.outSt (Rogu.rdsl_delete Rogu.c5stB true true false)).registry =
      Rogu.c5stB.registry ∧
    (Rogu.outSt (Rogu.rdsl_delete Rogu.c5stB true true false)).files =
      Rogu.c5stB.files := by
  exact ⟨rfl, rfl, rfl, by decide, by decide, by decide, by decide, by decide,
    by decide, by decide⟩

/-- C8. `cache_key` is a pure, deterministic function of the
canonicalized path and the URI: two invocations whose paths
canonicalize to the same string and whose URIs are identical produce
the identical key string, within a run or across process restarts
(the function reads no other state). -/
theorem cache_key_pure (normalize : String → String) (p1 p2 u1 u2 : String)
    (hp : normalize p1 = normalize p2) (hu : u1 = u2) :
    Rogu.cache_key_of normalize p1 u1 = Rogu.cache_key_of normalize p2 u2 := by
  simp [Rogu.cache_key_of, hp, hu]

/-- Witness for C8: two distinct raw paths with the same
canonicalization give the same key. -/
theorem cache_key_pure_witness :
    (fun _ : String => "c") "x" = (fun _ : String => "c") "y" ∧
    Rogu.cache_key_of (fun _ => "c") "x" "u" = Rogu.cache_key_of (fun _ => "c") "y" "u" :=
  ⟨rfl, cache_key_pure (fun _ => "c") "x" "y" "u" "u" rfl rfl⟩

/-- C2 (amended). `install`/`upload` are gated by the history-based
modification check, not by `divergence()`: (1) not forced and modified
w.r.t. the last ok `install` entry, `install` returns a failed Result
and transfers nothing; (2) otherwise it sets the INSTALL category bit;
(3) when the conditional GET answers 304 (matching ETag), it is a no-op
success; (4) when content arrives it is written to the path and the
stored ETag/Last-Modified are updated from the response.  Symmetrically
(5) `upload` not forced and NOT modified w.r.t. the last ok `upload`
entry returns a failed Result and transfers nothing; (6) otherwise it
sets the UPLOAD bit - but no upload can ever transfer: (7) with the
local path absent, `File.upload` raises ActionBlocked, caught into a
failed Result with the remote untouched; (8) with the local file
present, the attempt aborts fatally with a TypeError inside `ugor.put`
(`_UgorResource.ugor_upload` passes `obj=` for put's required
parameter `o`) before any HTTP request, so nothing is transferred and
the stored ETag stays unchanged. -/
theorem install_upload_follow_modification_gate (st : St) (force : Bool) :
    (Rogu.is_modified (Rogu.refresh_metadata st) (some ["install"]) = true →
      force = false →
      Rogu.outSuccess (Rogu.rdsl_install st force) = false ∧
      (Rogu.outSt (Rogu.rdsl_install st force)).files = st.files ∧
      (Rogu.outSt (Rogu.rdsl_install st force)).remote = st.remote ∧
      (Rogu.outSt (Rogu.rdsl_install st force)).res = (Rogu.refresh_metadata st).res) ∧
    ((Rogu.is_modified (Rogu.refresh_metadata st) (some ["install"]) && !force) = false →
      (Rogu.outSt (Rogu.rdsl_install st force)).res.category =
        (Rogu.refresh_metadata st).res.category ||| Rogu.INSTALL) ∧
    (∀ rf,
      (Rogu.is_modified (Rogu.refresh_metadata st) (some ["install"]) && !force) = false →
      st.remote = some rf →
      Rogu.notMod (if force then none else (Rogu.refresh_metadata st).res.lastEtag)
        (if force then none else (Rogu.refresh_metadata st).res.lastModified) rf = true →
      Rogu.outSuccess (Rogu.rdsl_install st force) = true ∧
      (Rogu.outSt (Rogu.rdsl_install st force)).files = st.files) ∧
    (∀ rf,
      (Rogu.is_modified (Rogu.refresh_metadata st) (some ["install"]) && !force) = false →
      st.remote = some rf →
      Rogu.notMod (if force then none else (Rogu.refresh_metadata st).res.lastEtag)
        (if force then none else (Rogu.refresh_metadata st).res.lastModified) rf = false →
      Rogu.outSuccess (Rogu.rdsl_install st force) = true ∧
      Rogu.alist_get (Rogu.outSt (Rogu.rdsl_install st force)).files
        (Rogu.refresh_metadata st).res.path = some ⟨rf.content, st.clock⟩ ∧
      (Rogu.outSt (Rogu.rdsl_install st force)).res.lastEtag = some rf.etag ∧
      (Rogu.outSt (Rogu.rdsl_install st force)).res.lastModified = some rf.modified) ∧
    (Rogu.is_modified (Rogu.refresh_metadata st) (some ["upload"]) = false →
      force = false →
      Rogu.outSuccess (Rogu.rdsl_upload st force) = false ∧
      (Rogu.outSt (Rogu.rdsl_upload st force)).remote = st.remote ∧
      (Rogu.outSt (Rogu.rdsl_upload st force)).res = (Rogu.refresh_metadata st).res) ∧
    ((!(Rogu.is_modified (Rogu.refresh_metadata st) (some ["upload"])) && !force) = false →
      (Rogu.outSt (Rogu.rdsl_upload st force)).res.category =
        (Rogu.refresh_metadata st).res.category ||| Rogu.UPLOAD) ∧
    ((!(Rogu.is_modified (Rogu.refresh_metadata st) (some ["upload"])) && !force) = false →
      Rogu.alist_get (Rogu.refresh_metadata st).files
        (Rogu.refresh_metadata st).res.path = none →
      Rogu.outSuccess (Rogu.rdsl_upload st force) = false ∧
      (Rogu.outSt (Rogu.rdsl_upload st force)).remote = st.remote) ∧
    (∀ fd,
      (!(Rogu.is_modified (Rogu.refresh_metadata st) (some ["upload"])) && !force) = false →
      Rogu.alist_get (Rogu.refresh_metadata st).files
        (Rogu.refresh_metadata st).res.path = some fd →
      Rogu.isFatal (Rogu.rdsl_upload st force) = true ∧
      (Rogu.outSt (Rogu.rdsl_upload st force)).remote = st.remote ∧
      (Rogu.outSt (Rogu.rdsl_upload st force)).files = st.files ∧
      (Rogu.outSt (Rogu.rdsl_upload st force)).res.lastEtag =
        (Rogu.refresh_metadata st).res.lastEtag) := by
  refine ⟨?_, ?_, ?_, ?_, ?_, ?_, ?_, ?_⟩
  · intro hg hf
    subst hf
    unfold Rogu.rdsl_install
    simp [hg, Rogu.outSuccess, Rogu.outSt, Rogu.record, Rogu.mkFail,
      refresh_files, refresh_remote]
  · intro hg
    rw [rdsl_install_eq_body st force hg]
    exact install_body_category _ force
  · intro rf hg hrem hnm
    rw [rdsl_install_eq_body st force hg]
    set L := { Rogu.refresh_metadata st with res :=
        { (Rogu.refresh_metadata st).res with
            category := (Rogu.refresh_metadata st).res.category ||| Rogu.INSTALL } }
      with hLdef
    rw [install_body_304 L force rf ((refresh_remote st).trans hrem) hnm]
    constructor
    · rfl
    · show (Rogu.record "install" L true _).files = st.files
      rw [Rogu.record]
      show L.files = st.files
      rw [hLdef]
      exact refresh_files st
  · intro rf hg hrem hnm
    rw [rdsl_install_eq_body st force hg]
    set L := { Rogu.refresh_metadata st with res :=
        { (Rogu.refresh_metadata st).res with
            category := (Rogu.refresh_metadata st).res.category ||| Rogu.INSTALL } }
      with hLdef
    obtain ⟨ha, hb, hc, hd⟩ :=
      install_body_transfer L force rf ((refresh_remote st).trans hrem) hnm
    refine ⟨ha, ?_, hc, hd⟩
    rw [← refresh_clock st]
    exact hb
  · intro hg hf
    subst hf
    unfold Rogu.rdsl_upload
    simp [hg, Rogu.outSuccess, Rogu.outSt, Rogu.record, Rogu.mkFail,
      refresh_remote]
  · intro hg
    rw [rdsl_upload_eq_body st force hg]
    exact upload_body_category _ force
  · intro hg hf
    rw [rdsl_upload_eq_body st force hg]
    set L := { Rogu.refresh_metadata st with res :=
        { (Rogu.refresh_metadata st).res with
            category := (Rogu.refresh_metadata st).res.category ||| Rogu.UPLOAD } }
      with hLdef
    obtain ⟨ha, hb, _⟩ := upload_body_blocked L force hf
    refine ⟨ha, ?_⟩
    rw [hb, hLdef]
    exact refresh_remote st
  · intro fd hg hf
    rw [rdsl_upload_eq_body st force hg]
    set L := { Rogu.refresh_metadata st with res :=
        { (Rogu.refresh_metadata st).res with
            category := (Rogu.refresh_metadata st).res.category ||| Rogu.UPLOAD } }
      with hLdef
    obtain ⟨ha, hb⟩ := upload_body_typeerror L force fd hf
    refine ⟨ha, ?_, ?_, ?_⟩
    · rw [hb, hLdef]
      exact refresh_remote st
    · rw [hb, hLdef]
      exact refresh_files st
    · rw [hb]

/-- Witness for C2 (amended): at `c2st` the install gate is open and
the conditional GET answers 304, so install is a successful no-op. -/
theorem install_upload_gate_witness :
    Rogu.outSuccess (Rogu.rdsl_install Rogu.c2st false) = true ∧
    (Rogu.outSt (Rogu.rdsl_install Rogu.c2st false)).files = Rogu.c2st.files :=
  (install_upload_follow_modification_gate Rogu.c2st false).2.2.1
    ⟨"old", "e", 5, some "h", none⟩ (by decide) (by decide) (by decide)

theorem sync_install_phase_category (st : St) (force : Bool) (msgs : List String) :
    (Rogu.outSt (Rogu.sync_install_phase st force msgs)).res.category =
      st.res.category := by
  unfold Rogu.sync_install_phase
  split
  · rcases hfi : Rogu.file_install st force with e | s
    · rcases e with m | m | ⟨c, m⟩ | m <;> simp [Rogu.outSt, Rogu.record]
    · simp [Rogu.outSt, Rogu.record, (file_install_frame st force s hfi).2.2.2.2.2.1]
  · simp [Rogu.outSt, Rogu.record]

theorem sync_upload_phase_category (st : St) (force : Bool) :
    (Rogu.outSt (Rogu.sync_upload_phase st force)).res.category =
      st.res.category := by
  unfold Rogu.sync_upload_phase
  rcases hfi : Rogu.file_upload st force with e | s
  · rcases e with m | m | ⟨c, m⟩ | m
    · exact sync_install_phase_category st force _
    · simp [Rogu.outSt]
    · simp [Rogu.outSt]
    · simp [Rogu.outSt]
  · simp [Rogu.outSt, Rogu.record, (file_upload_frame st force s hfi).2.2.2.2.2.1]

theorem rdsl_sync_category (st : St) (force : Bool) :
    (Rogu.outSt (Rogu.rdsl_sync st force)).res.category =
      (Rogu.refresh_metadata st).res.category ||| Rogu.SYNC := by
  unfold Rogu.rdsl_sync
  simp only []
  split
  · exact sync_upload_phase_category _ force
  · exact sync_install_phase_category _ force _

theorem rdsl_sync_eq_upload (st : St) (force : Bool)
    (hg : Rogu.is_modified
      { Rogu.refresh_metadata st with res :=
          { (Rogu.refresh_metadata st).res with
              category := (Rogu.refresh_metadata st).res.category ||| Rogu.SYNC } }
      (some ["sync", "upload"]) = true) :
    Rogu.rdsl_sync st force =
      Rogu.sync_upload_phase
        { Rogu.refresh_metadata st with res :=
            { (Rogu.refresh_metadata st).res with
                category := (Rogu.refresh_metadata st).res.category ||| Rogu.SYNC } }
        force := by
  unfold Rogu.rdsl_sync
  simp [hg]

theorem rdsl_sync_eq_install (st : St) (force : Bool)
    (hg : Rogu.is_modified
      { Rogu.refresh_metadata st with res :=
          { (Rogu.refresh_metadata st).res with
              category := (Rogu.refresh_metadata st).res.category ||| Rogu.SYNC } }
      (some ["sync", "upload"]) = false) :
    Rogu.rdsl_sync st force =
      Rogu.sync_install_phase
        { Rogu.refresh_metadata st with res :=
            { (Rogu.refresh_metadata st).res with
                category := (Rogu.refresh_metadata st).res.category ||| Rogu.SYNC } }
        force ["not uploaded: no local changes"] := by
  unfold Rogu.rdsl_sync
  simp [hg]

theorem sync_upload_phase_typeerror (st : St) (force : Bool) (fd : FileData)
    (hf : Rogu.alist_get st.files st.res.path = some fd) :
    Rogu.sync_upload_phase st force =
      .error (.os "TypeError: put() missing required positional argument o", st) := by
  unfold Rogu.sync_upload_phase
  rw [file_upload_typeerror st force fd hf]

theorem sync_install_phase_noop (st : St) (force : Bool) (msgs : List String)
    (h : Rogu.is_modified st (some ["sync", "install"]) = true) :
    Rogu.outSuccess (Rogu.sync_install_phase st force msgs) = true ∧
    (Rogu.outSt (Rogu.sync_install_phase st force msgs)).files = st.files ∧
    (Rogu.outSt (Rogu.sync_install_phase st force msgs)).remote = st.remote := by
  unfold Rogu.sync_install_phase
  simp [h, Rogu.outSt, Rogu.outSuccess, Rogu.record, Rogu.mkOk]

/-- C3 (amended). `sync` never consults `divergence()`: (1) it always
sets both SYNC category bits (also on the in-memory state of a fatal
abort); (2) when the resource is modified w.r.t. the last ok
`sync`/`upload` history entry and the local file exists, the upload
attempt aborts FATALLY with the TypeError raised inside the broken
`ugor.put` call binding, before any HTTP request - a fatal error, not a
Blocked Result - leaving remote and local content untouched; (3) when
unmodified w.r.t. `sync`/`upload` but modified w.r.t. `sync`/`install`,
nothing is transferred and the returned "not synced" Result is
nevertheless SUCCESSFUL (the initial `Ok()` keeps its success flag),
not Blocked. -/
theorem sync_follows_history_not_divergence (st : St) (force : Bool) :
    ((Rogu.outSt (Rogu.rdsl_sync st force)).res.category =
       (Rogu.refresh_metadata st).res.category ||| Rogu.SYNC) ∧
    (∀ fd,
      Rogu.is_modified
        { Rogu.refresh_metadata st with res :=
            { (Rogu.refresh_metadata st).res with
                category := (Rogu.refresh_metadata st).res.category ||| Rogu.SYNC } }
        (some ["sync", "upload"]) = true →
      Rogu.alist_get (Rogu.refresh_metadata st).files
        (Rogu.refresh_metadata st).res.path = some fd →
      Rogu.isFatal (Rogu.rdsl_sync st force) = true ∧
      (Rogu.outSt (Rogu.rdsl_sync st force)).remote = st.remote ∧
      (Rogu.outSt (Rogu.rdsl_sync st force)).files = st.files) ∧
    (Rogu.is_modified
        { Rogu.refresh_metadata st with res :=
            { (Rogu.refresh_metadata st).res with
                category := (Rogu.refresh_metadata st).res.category ||| Rogu.SYNC } }
        (some ["sync", "upload"]) = false →
      Rogu.is_modified
        { Rogu.refresh_metadata st with res :=
            { (Rogu.refresh_metadata st).res with
                category := (Rogu.refresh_metadata st).res.category ||| Rogu.SYNC } }
        (some ["sync", "install"]) = true →
      Rogu.outSuccess (Rogu.rdsl_sync st force) = true ∧
      (Rogu.outSt (Rogu.rdsl_sync st force)).files = st.files ∧
      (Rogu.outSt (Rogu.rdsl_sync st force)).remote = st.remote) := by
  refine ⟨rdsl_sync_category st force, ?_, ?_⟩
  · intro fd hg hf
    rw [rdsl_sync_eq_upload st force hg]
    set L := { Rogu.refresh_metadata st with res :=
        { (Rogu.refresh_metadata st).res with
            category := (Rogu.refresh_metadata st).res.category ||| Rogu.SYNC } }
      with hLdef
    rw [sync_upload_phase_typeerror L force fd hf]
    refine ⟨rfl, ?_, ?_⟩
    · show L.remote = st.remote
      rw [hLdef]
      exact refresh_remote st
    · show L.files = st.files
      rw [hLdef]
      exact refresh_files st
  · intro hg hi
    rw [rdsl_sync_eq_install st force hg]
    set L := { Rogu.refresh_metadata st with res :=
        { (Rogu.refresh_metadata st).res with
            category := (Rogu.refresh_metadata st).res.category ||| Rogu.SYNC } }
      with hLdef
    obtain ⟨ha, hb, hc⟩ :=
      sync_install_phase_noop L force ["not uploaded: no local changes"] hi
    refine ⟨ha, ?_, ?_⟩
    · rw [hb, hLdef]
      exact refresh_files st
    · rw [hc, hLdef]
      exact refresh_remote st

/-- Witness for C3 (amended): at `c3st` (never synced, both sides
present and different, empty history) the upload gate is open, and the
sync attempt aborts fatally with the TypeError, transferring nothing. -/
theorem sync_follows_history_witness :
    Rogu.isFatal (Rogu.rdsl_sync Rogu.c3st false) = true ∧
    (Rogu.outSt (Rogu.rdsl_sync Rogu.c3st false)).remote = Rogu.c3st.remote ∧
    (Rogu.outSt (Rogu.rdsl_sync Rogu.c3st false)).files = Rogu.c3st.files :=
  (sync_follows_history_not_divergence Rogu.c3st false).2.1
    ⟨"lc", 7⟩ (by decide) (by decide)

/-- C2 counterexample. A state with `divergence = 1` (local ahead, so
the claim demands a Blocked, failed Result) on which `install` without
force nevertheless returns a SUCCESSFUL result: the gate the code
actually applies is the history-based modification check, which passes
here because the newest ok install entry carries the current
fingerprint. -/
theorem install_not_blocked_at_positive_divergence :
    Rogu.divergence Rogu.c2st = 1 ∧
    Rogu.outSuccess (Rogu.rdsl_install Rogu.c2st false) = true := by
  exact ⟨by decide, by decide⟩

/-- C3 counterexample. A never-synced resource with conflicting local
and remote content has `divergence = 2` (conflict magnitude 2, so the
claim demands a Blocked - failed - Result and no transfer), yet `sync`
does not return Blocked at all: the history gate sends it into the
upload attempt, which aborts with the fatal TypeError raised at the
broken `ugor.put` call binding, so no Result is returned.  (Nothing is
transferred, but only because the entire upload path is unreachable in
this source.) -/
theorem sync_aborts_fatally_at_conflict :
    Rogu.divergence Rogu.c3st = 2 ∧
    Rogu.isFatal (Rogu.rdsl_sync Rogu.c3st false) = true ∧
    Rogu.outSuccess (Rogu.rdsl_sync Rogu.c3st false) = false ∧
    (Rogu.outSt (Rogu.rdsl_sync Rogu.c3st false)).remote = Rogu.c3st.remote := by
  exact ⟨by decide, by decide, by decide, by decide⟩

theorem move_category (st : St) (p : String) :
    (Rogu.outSt (Rogu.rdsl_move st p)).res.category = st.res.category := by
  unfold Rogu.rdsl_move
  simp only []
  split
  · simp [Rogu.outSt, Rogu.record]
  · rcases hf : Rogu.alist_get st.files st.res.path with _ | fd <;>
      simp [hf, Rogu.outSt, Rogu.record]

theorem delete_category (st : St) (lf rf ff : Bool) :
    (Rogu.outSt (Rogu.rdsl_delete st lf rf ff)).res.category = st.res.category := by
  unfold Rogu.rdsl_delete
  rcases h1 : Rogu.delete_remote_step st rf ff with e | p1
  · rcases e with ⟨e, s⟩
    rw [delete_remote_err st rf ff e s h1]
    rfl
  · rcases p1 with ⟨st1, msgs1⟩
    have hres1 : st1.res = st.res := (delete_remote_ok st rf ff st1 msgs1 h1).2.2.2.1
    have hres2 := (delete_local_frame st1 lf msgs1).2.2.1
    simp only []
    rcases h3 : Rogu.delete_cache_step (Rogu.delete_local_step st1 lf msgs1).1
        (Rogu.delete_local_step st1 lf msgs1).2 with e | p3
    · rcases e with ⟨e, s⟩
      show s.res.category = st.res.category
      rw [delete_cache_err _ _ e s h3, hres2, hres1]
    · rcases p3 with ⟨s, r⟩
      show s.res.category = st.res.category
      rw [(delete_cache_ok _ _ s r h3).2.1, hres2, hres1]

/-- C4 (amended). The category bitmask accumulates across engine
actions only as long as the resource's local path exists when the
action runs: under that condition install/upload/sync preserve every
set bit (and may add their own), and move/delete preserve the category
unconditionally.  When the local path is absent and the category is
non-zero, the `refresh_metadata` step of update/install/upload/sync
resets the category to DEFAULT, so bits - the INSTALL bit included -
can be lost without IGNORE ever being set (see the counterexample). -/
theorem category_monotone_when_path_exists (st : St) (force lf rf ff : Bool)
    (p : String) (b : Nat) :
    (Rogu.exists_local st = true → st.res.category.testBit b = true →
      (Rogu.outSt (Rogu.rdsl_install st force)).res.category.testBit b = true ∧
      (Rogu.outSt (Rogu.rdsl_upload st force)).res.category.testBit b = true ∧
      (Rogu.outSt (Rogu.rdsl_sync st force)).res.category.testBit b = true) ∧
    (st.res.category.testBit b = true →
      (Rogu.outSt (Rogu.rdsl_move st p)).res.category.testBit b = true ∧
      (Rogu.outSt (Rogu.rdsl_delete st lf rf ff)).res.category.testBit b = true) := by
  constructor
  · intro hex hb
    have hre := refresh_of_exists st hex
    refine ⟨?_, ?_, ?_⟩
    · by_cases hg : (Rogu.is_modified (Rogu.refresh_metadata st)
          (some ["install"]) && !force) = true
      · have hg2 : (Rogu.is_modified st (some ["install"]) && !force) = true := by
          rwa [hre] at hg
        unfold Rogu.rdsl_install
        simp only []
        rw [hre, if_pos hg2]
        simpa [Rogu.outSt, Rogu.record] using hb
      · rw [rdsl_install_eq_body st force (by simpa using hg)]
        rw [install_body_category _ force]
        simp [hre, Nat.testBit_or, hb]
    · by_cases hg : (!(Rogu.is_modified (Rogu.refresh_metadata st)
          (some ["upload"])) && !force) = true
      · have hg2 : (!(Rogu.is_modified st (some ["upload"])) && !force) = true := by
          rwa [hre] at hg
        unfold Rogu.rdsl_upload
        simp only []
        rw [hre, if_pos hg2]
        simpa [Rogu.outSt, Rogu.record] using hb
      · rw [rdsl_upload_eq_body st force (by simpa using hg)]
        rw [upload_body_category _ force]
        simp [hre, Nat.testBit_or, hb]
    · rw [rdsl_sync_category st force]
      simp [hre, Nat.testBit_or, hb]
  · intro hb
    constructor
    · rw [move_category st p]
      exact hb
    · rw [delete_category st lf rf ff]
      exact hb

/-- Witness for C4 (amended): at `c9st` the local file exists and the
INSTALL bit (bit 0) is set; it survives an upload and a delete. -/
theorem category_monotone_witness :
    (Rogu.outSt (Rogu.rdsl_upload Rogu.c9st false)).res.category.testBit 0 = true ∧
    (Rogu.outSt (Rogu.rdsl_delete Rogu.c9st true true false)).res.category.testBit 0 =
      true :=
  ⟨((category_monotone_when_path_exists Rogu.c9st false true true false "q" 0).1
      (by decide) (by decide)).2.1,
   ((category_monotone_when_path_exists Rogu.c9st false true true false "q" 0).2
      (by decide)).2⟩

/-- C4 counterexample. A resource with the INSTALL bit set whose local
path is gone: the `refresh_metadata` step of a subsequent `upload`
resets the category to DEFAULT, and the upload is then refused before
any bit is re-added - the INSTALL bit is lost without IGNORE ever being
set. -/
theorem category_reset_on_missing_path :
    Rogu.c4st.res.category = Rogu.INSTALL ∧
    Rogu.isFatal (Rogu.rdsl_upload Rogu.c4st false) = false ∧
    (Rogu.outSt (Rogu.rdsl_upload Rogu.c4st false)).res.category = 0 := by
  exact ⟨by decide, by decide, by decide⟩

theorem update_record_wrap_ok (o : ActionOut) (s : St) (r : Result)
    (h : Rogu.update_record_wrap o = .ok (s, r)) :
    ∃ s0, o = .ok (s0, r) ∧ s.hist.length = s0.hist.length + 1 := by
  rcases o with e0 | ⟨s0, r0⟩
  · simp [Rogu.update_record_wrap] at h
  · simp only [Rogu.update_record_wrap, Except.ok.injEq, Prod.mk.injEq] at h
    obtain ⟨h1, h2⟩ := h
    subst h2
    refine ⟨s0, rfl, ?_⟩
    rw [← h1]
    simp [Rogu.record]

theorem update_record_wrap_err (o : ActionOut) (e : Err × St)
    (h : Rogu.update_record_wrap o = .error e) : o = .error e := by
  rcases o with e0 | ⟨s0, r0⟩
  · simpa [Rogu.update_record_wrap] using h
  · simp [Rogu.update_record_wrap] at h

theorem update_dispatch_hist_ok (st : St) (s : St) (r : Result)
    (h : Rogu.update_dispatch st = .ok (s, r)) :
    s.hist.length = st.hist.length + 2 := by
  unfold Rogu.update_dispatch at h
  split at h
  · obtain ⟨s0, ho, hlen⟩ := update_record_wrap_ok _ s r h
    rw [hlen, sync_hist_ok st false s0 r ho]
  · split at h
    · obtain ⟨s0, ho, hlen⟩ := update_record_wrap_ok _ s r h
      rw [hlen, install_hist_ok st false s0 r ho]
    · split at h
      · obtain ⟨s0, ho, hlen⟩ := update_record_wrap_ok _ s r h
        rw [hlen, upload_hist_ok st false s0 r ho]
      · simp at h

theorem update_dispatch_hist_err (st : St) (e : Err) (s : St)
    (h : Rogu.update_dispatch st = .error (e, s)) : s.hist = st.hist := by
  unfold Rogu.update_dispatch at h
  split at h
  · exact sync_hist_err st false e s (update_record_wrap_err _ _ h)
  · split at h
    · exact install_hist_err st false e s (update_record_wrap_err _ _ h)
    · split at h
      · exact upload_hist_err st false e s (update_record_wrap_err _ _ h)
      · simp only [Except.error.injEq, Prod.mk.injEq] at h
        obtain ⟨_, h2⟩ := h
        subst h2
        rfl

theorem update_hist_ok_ignored (st : St) (s : St) (r : Result)
    (hi : Rogu.is_ignored (Rogu.refresh_metadata st).res = true)
    (h : Rogu.rdsl_update st = .ok (s, r)) :
    s.hist.length = st.hist.length + 1 := by
  unfold Rogu.rdsl_update at h
  simp only [] at h
  rw [if_pos hi] at h
  simp only [Except.ok.injEq, Prod.mk.injEq] at h
  obtain ⟨h1, _⟩ := h
  subst h1
  simp [Rogu.record, refresh_hist]

theorem update_hist_ok_dispatch (st : St) (s : St) (r : Result)
    (hi : Rogu.is_ignored (Rogu.refresh_metadata st).res = false)
    (h : Rogu.rdsl_update st = .ok (s, r)) :
    s.hist.length = st.hist.length + 2 := by
  unfold Rogu.rdsl_update at h
  simp only [] at h
  rw [if_neg (by simp [hi])] at h
  rw [update_dispatch_hist_ok _ s r h, refresh_hist]

theorem update_hist_err (st : St) (e : Err) (s : St)
    (h : Rogu.rdsl_update st = .error (e, s)) : s.hist = st.hist := by
  unfold Rogu.rdsl_update at h
  simp only [] at h
  split at h
  · simp at h
  · rw [update_dispatch_hist_err _ e s h, refresh_hist]

/-- C6 (amended). install, upload, sync, move and delete each append
exactly one History entry whenever they RETURN a Result, successful or
failed, and NONE when they abort with a fatal error (the `recording`
wrapper is bypassed - see the counterexample).  `update` is also
recorded, but not "exactly once": it appends one entry when it fails
fast itself (ignored resource), TWO entries when it dispatches to the
also-decorated sync/install/upload and the inner action returns a
Result (the inner action's entry plus update's own), and none on a
fatal abort. -/
theorem actions_record_once_on_result (st : St) (force lf rf ff : Bool) (p : String) :
    (∀ s r, Rogu.rdsl_install st force = .ok (s, r) →
       s.hist.length = st.hist.length + 1) ∧
    (∀ e s, Rogu.rdsl_install st force = .error (e, s) → s.hist = st.hist) ∧
    (∀ s r, Rogu.rdsl_upload st force = .ok (s, r) →
       s.hist.length = st.hist.length + 1) ∧
    (∀ e s, Rogu.rdsl_upload st force = .error (e, s) → s.hist = st.hist) ∧
    (∀ s r, Rogu.rdsl_sync st force = .ok (s, r) →
       s.hist.length = st.hist.length + 1) ∧
    (∀ e s, Rogu.rdsl_sync st force = .error (e, s) → s.hist = st.hist) ∧
    (∀ s r, Rogu.rdsl_move st p = .ok (s, r) →
       s.hist.length = st.hist.length + 1) ∧
    (∀ e s, Rogu.rdsl_move st p = .error (e, s) → s.hist = st.hist) ∧
    (∀ s r, Rogu.rdsl_delete st lf rf ff = .ok (s, r) →
       s.hist.length = st.hist.length + 1) ∧
    (∀ e s, Rogu.rdsl_delete st lf rf ff = .error (e, s) → s.hist = st.hist) ∧
    (Rogu.is_ignored (Rogu.refresh_metadata st).res = true →
       ∀ s r, Rogu.rdsl_update st = .ok (s, r) →
         s.hist.length = st.hist.length + 1) ∧
    (Rogu.is_ignored (Rogu.refresh_metadata st).res = false →
       ∀ s r, Rogu.rdsl_update st = .ok (s, r) →
         s.hist.length = st.hist.length + 2) ∧
    (∀ e s, Rogu.rdsl_update st = .error (e, s) → s.hist = st.hist) :=
  ⟨fun s r h => install_hist_ok st force s r h,
   fun e s h => install_hist_err st force e s h,
   fun s r h => upload_hist_ok st force s r h,
   fun e s h => upload_hist_err st force e s h,
   fun s r h => sync_hist_ok st force s r h,
   fun e s h => sync_hist_err st force e s h,
   fun s r h => move_hist_ok st p s r h,
   fun e s h => move_hist_err st p e s h,
   fun s r h => delete_hist_ok st lf rf ff s r h,
   fun e s h => delete_hist_err st lf rf ff e s h,
   fun hi s r h => update_hist_ok_ignored st s r hi h,
   fun hi s r h => update_hist_ok_dispatch st s r hi h,
   fun e s h => update_hist_err st e s h⟩

/-- Witness for C6 (amended): the failed upload at `c4st` still
appends exactly one history entry, and the dispatching update at
`c6stB` (install dispatch, 304 no-op) appends exactly two. -/
theorem actions_record_once_witness :
    (Rogu.outSt (Rogu.rdsl_upload Rogu.c4st false)).hist.length =
      Rogu.c4st.hist.length + 1 ∧
    (Rogu.outSt (Rogu.rdsl_update Rogu.c6stB)).hist.length =
      Rogu.c6stB.hist.length + 2 :=
  ⟨(actions_record_once_on_result Rogu.c4st false false false false "q").2.2.1
     (Rogu.outSt (Rogu.rdsl_upload Rogu.c4st false))
     (Rogu.mkFail ["not uploaded: resource has no local changes"]) rfl,
   (actions_record_once_on_result Rogu.c6stB false false false false
       "q").2.2.2.2.2.2.2.2.2.2.2.1
     (by decide)
     (Rogu.outSt (Rogu.rdsl_update Rogu.c6stB))
     (Rogu.mkOk ["installed f"]) rfl⟩

/-- C6 counterexample. `install` on a state where the conditional GET
raises 404 aborts fatally, and the history log receives NO entry (the
`recording` wrapper only records when the body returns a Result),
contradicting the claim's "exactly one entry ... when it aborts with a
fatal error". -/
theorem fatal_install_records_nothing :
    Rogu.isFatal (Rogu.rdsl_install Rogu.c6st false) = true ∧
    (Rogu.outSt (Rogu.rdsl_install Rogu.c6st false)).hist = [] := by
  exact ⟨by decide, by decide⟩

/-- C7 (amended). `fetch` returns the stored resource unchanged when
the registry holds `cache_key(path, uri)` (and no type is forced);
otherwise the resource type is inferred from the local path and the URI
SHAPE - existing file path gives File, a uri ending in `.git` gives
Repo, an archive-looking uri or a directory path gives Archive, and
anything else gives File - the URI scheme plays no role, and `fetch`
with no forced type never fails (no UnrecognizedResource error exists
in src/rogu/errors.py). -/
theorem fetch_infers_from_path_and_suffix (ia : String → Bool) (pk : PathKind)
    (st : St) (path uri : String) :
    (∀ r, Rogu.alist_get st.registry (Rogu.cache_key path uri) = some r →
       Rogu.fetch ia pk st path uri none = .ok r) ∧
    (Rogu.alist_get st.registry (Rogu.cache_key path uri) = none →
       Rogu.fetch ia pk st path uri none =
         .ok (Rogu.mkRes (Rogu.infer_kind ia pk uri) path uri)) ∧
    (∃ r, Rogu.fetch ia pk st path uri none = .ok r) := by
  refine ⟨?_, ?_, ?_⟩
  · intro r h
    unfold Rogu.fetch
    rw [h]
  · intro h
    unfold Rogu.fetch
    rw [h]
  · rcases h : Rogu.alist_get st.registry (Rogu.cache_key path uri) with _ | r
    · exact ⟨_, by unfold Rogu.fetch; rw [h]⟩
    · exact ⟨r, by unfold Rogu.fetch; rw [h]⟩

/-- Witness for C7 (amended): on the empty registry of `c7st`, fetch of
a `.git` uri over an absent path builds a Repo resource. -/
theorem fetch_infers_witness :
    Rogu.fetch (fun _ => false) Rogu.PathKind.absent Rogu.c7st "p" "r.git" none =
      .ok (Rogu.mkRes (Rogu.infer_kind (fun _ => false) Rogu.PathKind.absent "r.git")
        "p" "r.git") :=
  (fetch_infers_from_path_and_suffix (fun _ => false) Rogu.PathKind.absent Rogu.c7st
    "p" "r.git").2.1 rfl

/-- C7 counterexample. With an empty registry, a URI with an
unrecognized scheme (`xyz://w`) does not fail with UnrecognizedResource
(no such error exists in src/rogu/errors.py): `fetch` returns a fresh
`File`.  Likewise a `ugor+archive` URI over an existing file path
yields a `File`, not an `Archive` - the scheme plays no role. -/
theorem fetch_unknown_scheme_returns_file :
    Rogu.fetch (fun _ => false) Rogu.PathKind.absent Rogu.c7st "p" "xyz://w" none =
      .ok (Rogu.mkRes Rogu.RKind.file "p" "xyz://w") ∧
    Rogu.fetch (fun _ => true) Rogu.PathKind.file Rogu.c7st "p" "ugor+archive://n" none =
      .ok (Rogu.mkRes Rogu.RKind.file "p" "ugor+archive://n") := by
  exact ⟨rfl, rfl⟩

/-- C9 (amended). `move(resource, newPath)` fails with no effect when
the registry already holds ANY entry under `cache_key(newPath, uri)`;
otherwise it relocates the local file and updates the in-memory
resource's path, leaving its remote bookkeeping (last ETag) and
category unchanged - but the registry itself is NOT rewritten: the old
entry remains and nothing is stored under the new identity, so a
subsequent fetch under the new path builds a fresh resource without the
ETag (see the counterexample). -/
theorem move_amended_behaviour (st : St) (p : String) :
    ((Rogu.alist_get st.registry (Rogu.cache_key p st.res.uri)).isSome = true →
      Rogu.outSuccess (Rogu.rdsl_move st p) = false ∧
      (Rogu.outSt (Rogu.rdsl_move st p)).files = st.files ∧
      (Rogu.outSt (Rogu.rdsl_move st p)).registry = st.registry ∧
      (Rogu.outSt (Rogu.rdsl_move st p)).res = st.res) ∧
    (∀ fd, Rogu.alist_get st.registry (Rogu.cache_key p st.res.uri) = none →
      Rogu.alist_get st.files st.res.path = some fd →
      Rogu.outSuccess (Rogu.rdsl_move st p) = true ∧
      (Rogu.outSt (Rogu.rdsl_move st p)).registry = st.registry ∧
      (Rogu.outSt (Rogu.rdsl_move st p)).res.path = p ∧
      (Rogu.outSt (Rogu.rdsl_move st p)).res.lastEtag = st.res.lastEtag ∧
      (Rogu.outSt (Rogu.rdsl_move st p)).res.category = st.res.category ∧
      (Rogu.outSt (Rogu.rdsl_move st p)).files =
        Rogu.alist_set (Rogu.alist_erase st.files st.res.path) p fd) := by
  constructor
  · intro h
    unfold Rogu.rdsl_move
    simp only []
    rw [if_pos h]
    simp [Rogu.outSuccess, Rogu.outSt, Rogu.record, Rogu.mkFail]
  · intro fd h hf
    unfold Rogu.rdsl_move
    simp only []
    rw [if_neg (by simp [h])]
    rw [hf]
    simp [Rogu.outSuccess, Rogu.outSt, Rogu.record, Rogu.mkOk]

/-- Witness for C9 (amended): moving `c9st` to the unoccupied path `q`
succeeds, keeps the registry and the stored ETag, and relocates the
file. -/
theorem move_amended_witness :
    Rogu.outSuccess (Rogu.rdsl_move Rogu.c9st "q") = true ∧
    (Rogu.outSt (Rogu.rdsl_move Rogu.c9st "q")).registry = Rogu.c9st.registry ∧
    (Rogu.outSt (Rogu.rdsl_move Rogu.c9st "q")).res.path = "q" ∧
    (Rogu.outSt (Rogu.rdsl_move Rogu.c9st "q")).res.lastEtag =
      Rogu.c9st.res.lastEtag ∧
    (Rogu.outSt (Rogu.rdsl_move Rogu.c9st "q")).res.category =
      Rogu.c9st.res.category ∧
    (Rogu.outSt (Rogu.rdsl_move Rogu.c9st "q")).files =
      Rogu.alist_set (Rogu.alist_erase Rogu.c9st.files Rogu.c9st.res.path) "q"
        ⟨"lc", 7⟩ :=
  (move_amended_behaviour Rogu.c9st "q").2 ⟨"lc", 7⟩ (by decide) (by decide)

/-- C9 counterexample. A successful `move` leaves the registry exactly
as it was: the old entry survives and nothing is stored under the new
key, so a subsequent `fetch` under the new path builds a FRESH `File`
whose bookkeeping is empty - the stored ETag (`e9`) is not carried
over, contradicting the claim's re-keying and ETag-intact assertions. -/
theorem move_leaves_registry_untouched :
    Rogu.outSuccess (Rogu.rdsl_move Rogu.c9st "q") = true ∧
    (Rogu.outSt (Rogu.rdsl_move Rogu.c9st "q")).registry = Rogu.c9st.registry ∧
    Rogu.alist_get (Rogu.outSt (Rogu.rdsl_move Rogu.c9st "q")).registry
      (Rogu.cache_key "q" "f") = none ∧
    Rogu.fetch (fun _ => false) Rogu.PathKind.file (Rogu.outSt (Rogu.rdsl_move Rogu.c9st "q"))
      "q" "f" none = .ok (Rogu.mkRes Rogu.RKind.file "q" "f") ∧
    (Rogu.mkRes Rogu.RKind.file "q" "f").lastEtag = none ∧
    Rogu.c9st.res.lastEtag = some "e9" := by
  exact ⟨by decide, by decide, by decide, rfl, rfl, rfl⟩

theorem find_filter {α : Type} (l : List α) (p q : α → Bool) :
    (l.filter p).find? q = l.find? (fun a => p a && q a) := by
  induction l with
  | nil => rfl
  | cons x t ih =>
      by_cases hp : p x = true
      · by_cases hq : q x = true <;>
          simp [List.filter_cons, List.find?_cons, hp, hq, ih]
      · simp [List.filter_cons, List.find?_cons, hp, ih]

theorem find_first {α : Type} (l1 : List α) (e : α) (l2 : List α) (p : α → Bool)
    (he : p e = true) (hl : ∀ x ∈ l1, ¬ p x = true) :
    (l1 ++ e :: l2).find? p = some e := by
  induction l1 with
  | nil => simp [List.find?_cons, he]
  | cons x t ih =>
      have hx : p x = false := by
        have := hl x (by simp)
        simpa using this
      simp only [List.cons_append, List.find?_cons, hx]
      exact ih (fun y hy => hl y (by simp [hy]))

/-- C10. The edge behaviour of `is_modified(resource, actions)`: when
no ok history entry for the resource's key passes the action filter,
the resource counts as modified exactly when its local path exists;
when such an entry exists, taking the newest one, the resource counts
as modified exactly when the recorded fingerprint differs from the
current one or the local path no longer exists. -/
theorem is_modified_edge_behaviour (st : St) (acts : Option (List String)) :
    ((∀ e ∈ st.hist,
        ¬(Rogu.entry_for st e = true ∧ Rogu.action_match acts e = true)) →
      Rogu.is_modified st acts = Rogu.exists_local st) ∧
    (∀ l1 e l2, st.hist = l1 ++ e :: l2 →
      Rogu.entry_for st e = true → Rogu.action_match acts e = true →
      (∀ x ∈ l1, ¬(Rogu.entry_for st x = true ∧ Rogu.action_match acts x = true)) →
      Rogu.is_modified st acts =
        (decide (e.localHash ≠ Rogu.path_hash st) || !Rogu.exists_local st)) := by
  constructor
  · intro h
    unfold Rogu.is_modified Rogu.resource_entries
    rw [find_filter]
    have hn : st.hist.find? (fun a => Rogu.entry_for st a && Rogu.action_match acts a)
        = none := by
      rw [List.find?_eq_none]
      intro x hx
      simp only [Bool.and_eq_true]
      exact fun ⟨h1, h2⟩ => h x hx ⟨h1, h2⟩
    rw [hn]
  · intro l1 e l2 hh h1 h2 h3
    unfold Rogu.is_modified Rogu.resource_entries
    rw [find_filter, hh]
    rw [find_first l1 e l2 _ (by simp [h1, h2])
      (fun x hx => by
        simp only [Bool.and_eq_true]
        exact fun ⟨ha, hb⟩ => h3 x hx ⟨ha, hb⟩)]

/-- Witness for C10: with the empty history of `c3st` no entry matches,
so the resource counts as modified exactly when the path exists (here:
it does). -/
theorem is_modified_edge_witness :
    Rogu.is_modified Rogu.c3st none = Rogu.exists_local Rogu.c3st :=
  (is_modified_edge_behaviour Rogu.c3st none).1 (by simp [Rogu.c3st])

end Rogu
